import Mathlib

/-!
# DesafioCEP: the two-provider CEP race of `main.go`

`main.go` starts two goroutines (`getBrasilAPI`, `getViaCEP`), each doing one
HTTP GET, and a `select` in `main` that takes the first response received on
one of two channels, or the expiry of a 2-second context.

The embedding has two layers.

* The provider functions are pure functions from what the HTTP stack and the
  JSON decoder hand back (taken as inputs) to the list of observable effects
  the goroutine performs, in program order.
* The process is a labelled transition system: `step s e` executes the event
  `e` (one statement of one goroutine, one rendezvous of the `select`, or the
  expiry of the context) in the state `s`, and is `none` where the statement
  is blocked. `run` executes a schedule, a list of events.
-/

namespace DesafioCEP

/-! ## Data model (main.go, lines 19 to 35) -/

/-- The struct `BrasilAPIResponse`. -/
structure BrasilAPIResponse where
  Cep : String
  Logradouro : String
  Bairro : String
  Localidade : String
  Uf : String
  Complemento : String
deriving DecidableEq, Repr

/-- The struct `ViaCEPResponse`. -/
structure ViaCEPResponse where
  Cep : String
  Logradouro : String
  Bairro : String
  Localidade : String
  Uf : String
  Complemento : String
deriving DecidableEq, Repr

/-- What the HTTP stack gives a provider goroutine for its one GET:
`http.NewRequestWithContext` fails, or `http.DefaultClient.Do` fails, or a
response arrives with a status code, a status text and the result of
`ioutil.ReadAll` on its body. -/
inductive HttpExchange where
  | newRequestErr (err : String)
  | doErr (err : String)
  | response (statusCode : Nat) (status : String) (body : Except String String)

/-- The constant `http.StatusOK`. -/
def StatusOK : Nat := 200

/-- The observable effects of a provider goroutine: a `fmt.Printf`, the call
`wg.Done()`, and the channel send `ch <- r`. -/
inductive Effect (R : Type) where
  | print (line : String)
  | wgDone
  | send (r : R)
deriving DecidableEq, Repr

/-! ## The provider goroutines (main.go, lines 37 to 113) -/

/-- The function `getBrasilAPI`: the effects it performs, in order, given the
CEP, the outcome of the HTTP exchange and the behaviour of `json.Unmarshal`
on the body. Every error path prints one line and returns; the success path
calls `wg.Done()` and then sends the decoded struct on the channel. -/
def getBrasilAPI (cep : String) (x : HttpExchange)
    (unmarshal : String → Except String BrasilAPIResponse) :
    List (Effect BrasilAPIResponse) :=
  match x with
  | .newRequestErr err =>
    [.print ("Erro ao criar requisição BrasilAPI para CEP " ++ cep ++ ": " ++ err ++ "\n")]
  | .doErr err =>
    [.print ("Erro ao obter resposta BrasilAPI para CEP " ++ cep ++ ": " ++ err ++ "\n")]
  | .response statusCode status body =>
    if statusCode ≠ StatusOK then
      [.print ("Erro na resposta BrasilAPI para CEP " ++ cep ++ ": " ++ status ++ "\n")]
    else
      match body with
      | .error err =>
        [.print ("Erro ao ler corpo da resposta BrasilAPI para CEP " ++ cep ++ ": " ++ err
          ++ "\n")]
      | .ok b =>
        match unmarshal b with
        | .error err =>
          [.print ("Erro ao decodificar JSON da resposta BrasilAPI para CEP " ++ cep ++ ": "
            ++ err ++ "\n")]
        | .ok brasilAPIResponse => [.wgDone, .send brasilAPIResponse]

/-- The function `getViaCEP`, with the same shape as `getBrasilAPI`. -/
def getViaCEP (cep : String) (x : HttpExchange)
    (unmarshal : String → Except String ViaCEPResponse) :
    List (Effect ViaCEPResponse) :=
  match x with
  | .newRequestErr err =>
    [.print ("Erro ao criar requisição ViaCEP para CEP " ++ cep ++ ": " ++ err ++ "\n")]
  | .doErr err =>
    [.print ("Erro ao obter resposta ViaCEP para CEP " ++ cep ++ ": " ++ err ++ "\n")]
  | .response statusCode status body =>
    if statusCode ≠ StatusOK then
      [.print ("Erro na resposta ViaCEP para CEP " ++ cep ++ ": " ++ status ++ "\n")]
    else
      match body with
      | .error err =>
        [.print ("Erro ao ler corpo da resposta ViaCEP para CEP " ++ cep ++ ": " ++ err
          ++ "\n")]
      | .ok b =>
        match unmarshal b with
        | .error err =>
          [.print ("Erro ao decodificar JSON da resposta ViaCEP para CEP " ++ cep ++ ": "
            ++ err ++ "\n")]
        | .ok viaCEPResponse => [.wgDone, .send viaCEPResponse]

/-! ## The function main (main.go, lines 115 to 162) -/

/-- The three goroutines of the process. -/
inductive Goroutine where
  | main
  | brasilAPI
  | viaCEP
deriving DecidableEq, Repr

/-- The three cases of the `select` in `main`, with the value received. -/
inductive SelectCase where
  | brasilAPI (r : BrasilAPIResponse)
  | viaCEP (r : ViaCEPResponse)
  | ctxDone
deriving DecidableEq, Repr

/-- The statements of a `select` branch: `fmt.Printf` and `wg.Done()`. -/
inductive MainOp where
  | print (line : String)
  | wgDone
deriving DecidableEq, Repr

/-- The lines printed by the branch `case brasilAPIResponse := <-brasilAPI`. -/
def brasilAPILines (r : BrasilAPIResponse) : List String :=
  ["\nResultado da BrasilAPI:\n",
   "CEP: " ++ r.Cep ++ "\n",
   "Logradouro: " ++ r.Logradouro ++ "\n",
   "Bairro: " ++ r.Bairro ++ "\n",
   "Localidade: " ++ r.Localidade ++ "\n",
   "UF: " ++ r.Uf ++ "\n",
   "Complemento: " ++ r.Complemento ++ "\n",
   "Fonte: BrasilAPI\n"]

/-- The lines printed by the branch `case viaCEPResponse := <-viaCEP`. -/
def viaCEPLines (r : ViaCEPResponse) : List String :=
  ["\nResultado da ViaCEP:\n",
   "CEP: " ++ r.Cep ++ "\n",
   "Logradouro: " ++ r.Logradouro ++ "\n",
   "Bairro: " ++ r.Bairro ++ "\n",
   "Localidade: " ++ r.Localidade ++ "\n",
   "UF: " ++ r.Uf ++ "\n",
   "Complemento: " ++ r.Complemento ++ "\n",
   "Fonte: ViaCEP\n"]

/-- The line printed by the branch `case <-ctx.Done()`. -/
def ctxDoneLines : List String := ["Tempo limite esgotado!\n"]

/-- The statements of the branch of the `select` that was taken: the two
receiving branches print their block and then call `wg.Done()`; the
`ctx.Done()` branch only prints. -/
def branch : SelectCase → List MainOp
  | .brasilAPI r => (brasilAPILines r).map MainOp.print ++ [MainOp.wgDone]
  | .viaCEP r => (viaCEPLines r).map MainOp.print ++ [MainOp.wgDone]
  | .ctxDone => ctxDoneLines.map MainOp.print

/-- How the process stands: still running, ended by the return of `main`
(exit code 0), or ended by a panic raised in one of the goroutines. -/
inductive Status where
  | running
  | exited (code : Nat)
  | panicked (g : Goroutine)
deriving DecidableEq, Repr

/-- The state of the process from the `select` on.

* `wg` is the counter of the `sync.WaitGroup`;
* `timedOut` says whether the 2-second context has expired (`ctx.Done()` is
  closed);
* `brasil` and `via` are the effects the provider goroutines still have to
  perform (`[]`: returned);
* `taken` is the case the `select` took (`none`: `main` is blocked in it);
* `main` is what remains of the branch taken, after which comes `wg.Wait()`;
* `output` is what was written to standard output since the goroutines were
  started, each line with the goroutine that wrote it. -/
structure State where
  status : Status
  wg : Int
  timedOut : Bool
  brasil : List (Effect BrasilAPIResponse)
  via : List (Effect ViaCEPResponse)
  taken : Option SelectCase
  main : List MainOp
  output : List (Goroutine × String)
deriving DecidableEq, Repr

/-- The events of the process. `brasil`, `via` and `main` execute the next
statement of that goroutine; `recvBrasil`, `recvVia` and `ctxDone` are the
`select` taking one of its cases; `deadline` is the expiry of the context. -/
inductive Event where
  | brasil
  | via
  | deadline
  | recvBrasil
  | recvVia
  | ctxDone
  | main
deriving DecidableEq, Repr

/-- The call `wg.Done()` made by goroutine `g`: the counter goes down by one,
and a counter below zero panics (`sync: negative WaitGroup counter`). -/
def wgDone (g : Goroutine) (s : State) : State :=
  if s.wg - 1 < 0 then { s with wg := s.wg - 1, status := .panicked g }
  else { s with wg := s.wg - 1 }

/-- One event. The channels are made by `make(chan T)` without a size, so a
send completes only together with the receive of the `select` (events
`recvBrasil`, `recvVia`): a provider whose next effect is a send cannot move
by itself. `wg.Wait()` returns only when the counter is zero, and the return
of `main` ends the process. Nothing moves once the process has ended. -/
def step (s : State) (e : Event) : Option State :=
  match s.status with
  | .running =>
    match e with
    | .deadline => if s.timedOut then none else some { s with timedOut := true }
    | .brasil =>
      match s.brasil with
      | .print line :: rest =>
        some { s with brasil := rest, output := s.output ++ [(.brasilAPI, line)] }
      | .wgDone :: rest => some (wgDone .brasilAPI { s with brasil := rest })
      | _ => none
    | .via =>
      match s.via with
      | .print line :: rest =>
        some { s with via := rest, output := s.output ++ [(.viaCEP, line)] }
      | .wgDone :: rest => some (wgDone .viaCEP { s with via := rest })
      | _ => none
    | .recvBrasil =>
      match s.taken, s.brasil with
      | none, .send r :: rest =>
        some { s with brasil := rest, taken := some (.brasilAPI r), main := branch (.brasilAPI r) }
      | _, _ => none
    | .recvVia =>
      match s.taken, s.via with
      | none, .send r :: rest =>
        some { s with via := rest, taken := some (.viaCEP r), main := branch (.viaCEP r) }
      | _, _ => none
    | .ctxDone =>
      match s.taken with
      | none =>
        if s.timedOut then some { s with taken := some .ctxDone, main := branch .ctxDone }
        else none
      | some _ => none
    | .main =>
      match s.taken, s.main with
      | some _, .print line :: rest =>
        some { s with main := rest, output := s.output ++ [(.main, line)] }
      | some _, .wgDone :: rest => some (wgDone .main { s with main := rest })
      | some _, [] => if s.wg = 0 then some { s with status := .exited 0 } else none
      | none, _ => none
  | _ => none

/-- A schedule: the events are executed in order, and the run is `none` as
soon as one of them is not enabled. -/
def run (s : State) : List Event → Option State
  | [] => some s
  | e :: es => (step s e).bind fun s' => run s' es

/-- The state in which `main` reaches its `select`: `wg.Add(2)` was called,
both goroutines were started on the CEP read from standard input, and the
2-second context is running. -/
def init (cep : String) (xB xV : HttpExchange)
    (uB : String → Except String BrasilAPIResponse)
    (uV : String → Except String ViaCEPResponse) : State :=
  { status := .running
    wg := 2
    timedOut := false
    brasil := getBrasilAPI cep xB uB
    via := getViaCEP cep xV uV
    taken := none
    main := []
    output := [] }

/-- The lines goroutine `g` wrote to the output. -/
def linesOf (g : Goroutine) (out : List (Goroutine × String)) : List String :=
  (out.filter fun p => decide (p.1 = g)).map Prod.snd

/-- The text on standard output. -/
def stdout (out : List (Goroutine × String)) : String :=
  String.join (out.map Prod.snd)

/-- Whether an event is the `select` taking a case. -/
def Event.isSelect : Event → Bool
  | .recvBrasil => true
  | .recvVia => true
  | .ctxDone => true
  | _ => false

/-- No event is enabled: every goroutine is blocked or has returned. -/
def stuck (s : State) : Bool :=
  [Event.brasil, .via, .deadline, .recvBrasil, .recvVia, .ctxDone, .main].all
    fun e => (step s e).isNone

/-! ## Concrete responses used in the examples -/

/-- A `BrasilAPIResponse` for CEP 01310-100. -/
def paulistaB : BrasilAPIResponse :=
  ⟨"01310-100", "Av. Paulista", "Bela Vista", "São Paulo", "SP", ""⟩

/-- A `ViaCEPResponse` for CEP 01310-100. -/
def paulistaV : ViaCEPResponse :=
  ⟨"01310-100", "Avenida Paulista", "Bela Vista", "São Paulo", "SP", "de 612 a 1510"⟩

/-- A decoder that accepts every body as the BrasilAPI record above. -/
def okB : String → Except String BrasilAPIResponse := fun _ => .ok paulistaB

/-- A decoder that accepts every body as the ViaCEP record above. -/
def okV : String → Except String ViaCEPResponse := fun _ => .ok paulistaV

/-- A 200 response with a body. -/
def ok200 : HttpExchange := .response 200 "200 OK" (.ok "body")

/-- A refused connection. -/
def refused : HttpExchange := .doErr "connection refused"

/-- Both providers answer 200; BrasilAPI has called `wg.Done()` and is at its
send, ViaCEP has not moved yet. -/
def brasilFirst : State :=
  { status := .running
    wg := 1
    timedOut := false
    brasil := [.send paulistaB]
    via := [.wgDone, .send paulistaV]
    taken := none
    main := []
    output := [] }

/-- ViaCEP was refused and printed its diagnostic; BrasilAPI answered 200,
called `wg.Done()` and is at its send. -/
def viaFailedBrasilSends : State :=
  { status := .running
    wg := 1
    timedOut := false
    brasil := [.send paulistaB]
    via := []
    taken := none
    main := []
    output := [(.viaCEP, "Erro ao obter resposta ViaCEP para CEP 01310-100: connection refused\n")] }

/-- BrasilAPI was refused and printed its diagnostic; ViaCEP answered 200,
called `wg.Done()` and is at its send. -/
def brasilFailedViaSends : State :=
  { status := .running
    wg := 1
    timedOut := false
    brasil := []
    via := [.send paulistaV]
    taken := none
    main := []
    output :=
      [(.brasilAPI, "Erro ao obter resposta BrasilAPI para CEP 01310-100: connection refused\n")] }

/-- ViaCEP was refused and printed its diagnostic; BrasilAPI answered 200 and
the `select` has just received its record. -/
def brasilWonViaFailed : State :=
  { status := .running
    wg := 1
    timedOut := false
    brasil := []
    via := []
    taken := some (.brasilAPI paulistaB)
    main := branch (.brasilAPI paulistaB)
    output := [(.viaCEP, "Erro ao obter resposta ViaCEP para CEP 01310-100: connection refused\n")] }

/-- BrasilAPI was refused and printed its diagnostic; ViaCEP answered 200 and
the `select` has just received its record. -/
def viaWonBrasilFailed : State :=
  { status := .running
    wg := 1
    timedOut := false
    brasil := []
    via := []
    taken := some (.viaCEP paulistaV)
    main := branch (.viaCEP paulistaV)
    output :=
      [(.brasilAPI, "Erro ao obter resposta BrasilAPI para CEP 01310-100: connection refused\n")] }

/-- Both providers answered 200; the `select` received the record of
BrasilAPI, and then ViaCEP called `wg.Done()` and reached its send. -/
def brasilWonViaSends : State :=
  { status := .running
    wg := 0
    timedOut := false
    brasil := []
    via := [.send paulistaV]
    taken := some (.brasilAPI paulistaB)
    main := branch (.brasilAPI paulistaB)
    output := [] }

/-- Both providers answered 200; the `select` received the record of ViaCEP,
and then BrasilAPI called `wg.Done()` and reached its send. -/
def viaWonBrasilSends : State :=
  { status := .running
    wg := 0
    timedOut := false
    brasil := [.send paulistaB]
    via := []
    taken := some (.viaCEP paulistaV)
    main := branch (.viaCEP paulistaV)
    output := [] }

/-- Both providers answer 200 but neither has moved when the 2-second
deadline expires. -/
def deadlineBothPending : State :=
  { status := .running
    wg := 2
    timedOut := true
    brasil := [.wgDone, .send paulistaB]
    via := [.wgDone, .send paulistaV]
    taken := none
    main := []
    output := [] }

/-- Both providers were refused and printed their diagnostics, well before
the 2-second deadline. -/
def bothFailed : State :=
  { status := .running
    wg := 2
    timedOut := false
    brasil := []
    via := []
    taken := none
    main := []
    output :=
      [(.brasilAPI, "Erro ao obter resposta BrasilAPI para CEP 01310-100: connection refused\n"),
       (.viaCEP, "Erro ao obter resposta ViaCEP para CEP 01310-100: connection refused\n")] }

/-- Both providers were refused and printed their diagnostics, and the
2-second deadline has expired with `main` still in the `select`. -/
def bothFailedDeadline : State :=
  { status := .running
    wg := 2
    timedOut := true
    brasil := []
    via := []
    taken := none
    main := []
    output :=
      [(.brasilAPI, "Erro ao obter resposta BrasilAPI para CEP 01310-100: connection refused\n"),
       (.viaCEP, "Erro ao obter resposta ViaCEP para CEP 01310-100: connection refused\n")] }

/-- Both providers answer 200; ViaCEP has called `wg.Done()` and is at its
send, BrasilAPI has not moved yet. -/
def viaFirst : State :=
  { status := .running
    wg := 1
    timedOut := false
    brasil := [.wgDone, .send paulistaB]
    via := [.send paulistaV]
    taken := none
    main := []
    output := [] }

/-! ## Bookkeeping for the invariant -/

/-- The lines printed by a list of provider effects. -/
def printsOf {R : Type} : List (Effect R) → List String
  | [] => []
  | .print line :: rest => line :: printsOf rest
  | _ :: rest => printsOf rest

/-- The number of `wg.Done()` calls in a list of provider effects. -/
def donesOf {R : Type} : List (Effect R) → Int
  | [] => 0
  | .wgDone :: rest => 1 + donesOf rest
  | _ :: rest => donesOf rest

/-- The lines printed by a list of statements of `main`. -/
def mainPrints : List MainOp → List String
  | [] => []
  | .print line :: rest => line :: mainPrints rest
  | .wgDone :: rest => mainPrints rest

/-- The number of `wg.Done()` calls in a list of statements of `main`. -/
def mainDones : List MainOp → Int
  | [] => 0
  | .wgDone :: rest => 1 + mainDones rest
  | .print _ :: rest => mainDones rest

/-- The invariant of the process, relative to the effect lists `eB`, `eV` the
two providers started with. `pB`, `pV` and `pM` are the effects each
goroutine has already performed. -/
structure Inv (eB : List (Effect BrasilAPIResponse)) (eV : List (Effect ViaCEPResponse))
    (s : State) (pB : List (Effect BrasilAPIResponse)) (pV : List (Effect ViaCEPResponse))
    (pM : List MainOp) : Prop where
  hB : eB = pB ++ s.brasil
  hV : eV = pV ++ s.via
  hM : ∀ c, s.taken = some c → branch c = pM ++ s.main
  hM0 : s.taken = none → pM = [] ∧ s.main = []
  outB : linesOf .brasilAPI s.output = printsOf pB
  outV : linesOf .viaCEP s.output = printsOf pV
  outM : linesOf .main s.output = mainPrints pM
  wg : s.wg = 2 - donesOf pB - donesOf pV - mainDones pM
  sentB : ∀ r, Effect.send r ∈ pB ↔ s.taken = some (.brasilAPI r)
  sentV : ∀ r, Effect.send r ∈ pV ↔ s.taken = some (.viaCEP r)
  tmo : s.taken = some .ctxDone → s.timedOut = true
  exited : ∀ c, s.status = .exited c → c = 0 ∧ s.wg = 0 ∧ s.taken ≠ none ∧ s.main = []
  panicked : ∀ g, s.status = .panicked g → s.wg < 0
  running : s.status = .running → 0 ≤ s.wg

/-! ## Basic lemmas -/

theorem printsOf_append {R : Type} (xs ys : List (Effect R)) :
    printsOf (xs ++ ys) = printsOf xs ++ printsOf ys := by
  induction xs with
  | nil => rfl
  | cons a t ih => cases a <;> simp [printsOf, ih]

theorem donesOf_append {R : Type} (xs ys : List (Effect R)) :
    donesOf (xs ++ ys) = donesOf xs + donesOf ys := by
  induction xs with
  | nil => simp [donesOf]
  | cons a t ih => cases a <;> simp [donesOf, ih]; omega

theorem mainPrints_append (xs ys : List MainOp) :
    mainPrints (xs ++ ys) = mainPrints xs ++ mainPrints ys := by
  induction xs with
  | nil => rfl
  | cons a t ih => cases a <;> simp [mainPrints, ih]

theorem mainDones_append (xs ys : List MainOp) :
    mainDones (xs ++ ys) = mainDones xs + mainDones ys := by
  induction xs with
  | nil => simp [mainDones]
  | cons a t ih => cases a <;> simp [mainDones, ih]; omega

theorem linesOf_append (g : Goroutine) (out : List (Goroutine × String)) (g' : Goroutine)
    (line : String) :
    linesOf g (out ++ [(g', line)])
      = if g' = g then linesOf g out ++ [line] else linesOf g out := by
  unfold linesOf
  by_cases h : g' = g <;> simp [List.filter_append, List.filter_cons, h]

theorem init_inv (cep : String) (xB xV : HttpExchange)
    (uB : String → Except String BrasilAPIResponse)
    (uV : String → Except String ViaCEPResponse) :
    Inv (getBrasilAPI cep xB uB) (getViaCEP cep xV uV) (init cep xB xV uB uV) [] [] [] := by
  constructor <;> simp [init, linesOf, printsOf, mainPrints, donesOf, mainDones]

/-- The effect of `wgDone` on the fields other than the counter and status. -/
theorem wgDone_fields (g : Goroutine) (s : State) :
    (wgDone g s).wg = s.wg - 1 ∧ (wgDone g s).timedOut = s.timedOut
      ∧ (wgDone g s).brasil = s.brasil ∧ (wgDone g s).via = s.via
      ∧ (wgDone g s).taken = s.taken ∧ (wgDone g s).main = s.main
      ∧ (wgDone g s).output = s.output := by
  unfold wgDone
  split <;> simp

theorem wgDone_status (g : Goroutine) (s : State) (h : s.status = .running) :
    (0 ≤ s.wg - 1 ∧ (wgDone g s).status = .running)
      ∨ (s.wg - 1 < 0 ∧ (wgDone g s).status = .panicked g) := by
  unfold wgDone
  split
  · right; simp; omega
  · left; simp [h]; omega

theorem step_running {s s' : State} {e : Event} (h : step s e = some s') :
    s.status = .running := by
  unfold step at h
  split at h
  · assumption
  · simp at h

theorem step_deadline {s s' : State} (h : step s .deadline = some s') :
    s.timedOut = false ∧ s' = { s with timedOut := true } := by
  have hr := step_running h
  simp only [step, hr] at h
  split at h
  · simp at h
  · simp at h; simp_all

theorem step_brasil {s s' : State} (h : step s .brasil = some s') :
    (∃ line rest, s.brasil = .print line :: rest
        ∧ s' = { s with brasil := rest, output := s.output ++ [(.brasilAPI, line)] })
      ∨ (∃ rest, s.brasil = .wgDone :: rest
        ∧ s' = wgDone .brasilAPI { s with brasil := rest }) := by
  have hr := step_running h
  simp only [step, hr] at h
  split at h
  · next line rest hb => left; exact ⟨line, rest, hb, by simpa [hr] using h.symm⟩
  · next rest hb => right; exact ⟨rest, hb, by simpa [hr] using h.symm⟩
  · simp at h

theorem step_via {s s' : State} (h : step s .via = some s') :
    (∃ line rest, s.via = .print line :: rest
        ∧ s' = { s with via := rest, output := s.output ++ [(.viaCEP, line)] })
      ∨ (∃ rest, s.via = .wgDone :: rest
        ∧ s' = wgDone .viaCEP { s with via := rest }) := by
  have hr := step_running h
  simp only [step, hr] at h
  split at h
  · next line rest hb => left; exact ⟨line, rest, hb, by simpa [hr] using h.symm⟩
  · next rest hb => right; exact ⟨rest, hb, by simpa [hr] using h.symm⟩
  · simp at h

theorem step_recvBrasil {s s' : State} (h : step s .recvBrasil = some s') :
    ∃ r rest, s.taken = none ∧ s.brasil = .send r :: rest
      ∧ s' = { s with brasil := rest, taken := some (.brasilAPI r),
                      main := branch (.brasilAPI r) } := by
  have hr := step_running h
  simp only [step, hr] at h
  split at h
  · next r rest ht hb => exact ⟨r, rest, ht, hb, by simpa [hr] using h.symm⟩
  · simp at h

theorem step_recvVia {s s' : State} (h : step s .recvVia = some s') :
    ∃ r rest, s.taken = none ∧ s.via = .send r :: rest
      ∧ s' = { s with via := rest, taken := some (.viaCEP r),
                      main := branch (.viaCEP r) } := by
  have hr := step_running h
  simp only [step, hr] at h
  split at h
  · next r rest ht hb => exact ⟨r, rest, ht, hb, by simpa [hr] using h.symm⟩
  · simp at h

theorem step_ctxDone {s s' : State} (h : step s .ctxDone = some s') :
    s.taken = none ∧ s.timedOut = true
      ∧ s' = { s with taken := some .ctxDone, main := branch .ctxDone } := by
  have hr := step_running h
  simp only [step, hr] at h
  split at h
  · next ht =>
    split at h
    · next hto => exact ⟨ht, hto, by simpa [hr] using h.symm⟩
    · simp at h
  · simp at h

theorem step_main {s s' : State} (h : step s .main = some s') :
    s.taken ≠ none ∧
    ((∃ line rest, s.main = .print line :: rest
        ∧ s' = { s with main := rest, output := s.output ++ [(.main, line)] })
      ∨ (∃ rest, s.main = .wgDone :: rest ∧ s' = wgDone .main { s with main := rest })
      ∨ (s.main = [] ∧ s.wg = 0 ∧ s' = { s with status := .exited 0 })) := by
  have hr := step_running h
  simp only [step, hr] at h
  split at h
  · next c line rest ht hm =>
    exact ⟨by simp [ht], Or.inl ⟨line, rest, hm, by simpa [hr] using h.symm⟩⟩
  · next c rest ht hm =>
    exact ⟨by simp [ht], Or.inr (Or.inl ⟨rest, hm, by simpa [hr] using h.symm⟩)⟩
  · next c ht hm =>
    split at h
    · next hw => exact ⟨by simp [ht], Or.inr (Or.inr ⟨hm, hw, by simpa [hr] using h.symm⟩)⟩
    · simp at h
  · simp at h

/-! ## The invariant is preserved by every event -/

/-- The invariant across a `wg.Done()`: every field but the counter and the
status is untouched, and the counter accounts for one more call. -/
theorem inv_wgDone {eB : List (Effect BrasilAPIResponse)} {eV : List (Effect ViaCEPResponse)}
    {pB : List (Effect BrasilAPIResponse)} {pV : List (Effect ViaCEPResponse)}
    {pM : List MainOp} (g : Goroutine) (s : State) (hr : s.status = .running)
    (hB : eB = pB ++ s.brasil) (hV : eV = pV ++ s.via)
    (hM : ∀ c, s.taken = some c → branch c = pM ++ s.main)
    (hM0 : s.taken = none → pM = [] ∧ s.main = [])
    (outB : linesOf .brasilAPI s.output = printsOf pB)
    (outV : linesOf .viaCEP s.output = printsOf pV)
    (outM : linesOf .main s.output = mainPrints pM)
    (wg : s.wg - 1 = 2 - donesOf pB - donesOf pV - mainDones pM)
    (sentB : ∀ r, Effect.send r ∈ pB ↔ s.taken = some (.brasilAPI r))
    (sentV : ∀ r, Effect.send r ∈ pV ↔ s.taken = some (.viaCEP r))
    (tmo : s.taken = some .ctxDone → s.timedOut = true) :
    Inv eB eV (wgDone g s) pB pV pM := by
  obtain ⟨f1, f2, f3, f4, f5, f6, f7⟩ := wgDone_fields g s
  have hs := wgDone_status g s hr
  generalize wgDone g s = t at f1 f2 f3 f4 f5 f6 f7 hs
  constructor
  · rw [f3]; exact hB
  · rw [f4]; exact hV
  · rw [f5, f6]; exact hM
  · rw [f5, f6]; exact hM0
  · rw [f7]; exact outB
  · rw [f7]; exact outV
  · rw [f7]; exact outM
  · rw [f1]; exact wg
  · rw [f5]; exact sentB
  · rw [f5]; exact sentV
  · rw [f5, f2]; exact tmo
  · intro c hc; rcases hs with ⟨_, h1⟩ | ⟨_, h1⟩ <;> simp [h1] at hc
  · intro g' hg; rcases hs with ⟨_, h1⟩ | ⟨h2, h1⟩
    · simp [h1] at hg
    · omega
  · intro hg; rcases hs with ⟨h2, h1⟩ | ⟨h2, h1⟩
    · omega
    · simp [h1] at hg

/-- One event preserves the invariant. -/
theorem step_inv {eB : List (Effect BrasilAPIResponse)} {eV : List (Effect ViaCEPResponse)}
    {s s' : State} {e : Event} {pB : List (Effect BrasilAPIResponse)}
    {pV : List (Effect ViaCEPResponse)} {pM : List MainOp}
    (inv : Inv eB eV s pB pV pM) (h : step s e = some s') :
    ∃ pB' pV' pM', Inv eB eV s' pB' pV' pM' := by
  have hr := step_running h
  obtain ⟨hB, hV, hM, hM0, outB, outV, outM, wg, sentB, sentV, tmo, hex, hpa, hru⟩ := inv
  cases e with
  | deadline =>
    obtain ⟨_, rfl⟩ := step_deadline h
    exact ⟨pB, pV, pM, ⟨hB, hV, hM, hM0, outB, outV, outM, wg, sentB, sentV, fun _ => rfl,
      hex, hpa, hru⟩⟩
  | brasil =>
    rcases step_brasil h with ⟨line, rest, hb, rfl⟩ | ⟨rest, hb, rfl⟩
    · refine ⟨pB ++ [.print line], pV, pM, ?_⟩
      constructor <;>
        simp_all [linesOf_append, printsOf_append, donesOf_append, printsOf, donesOf]
    · refine ⟨pB ++ [.wgDone], pV, pM, ?_⟩
      apply inv_wgDone
      · exact hr
      · simp [hB, hb]
      · exact hV
      · exact hM
      · exact hM0
      · simpa [printsOf_append, printsOf] using outB
      · exact outV
      · exact outM
      · simp [donesOf_append, donesOf]; omega
      · intro r; simp [← sentB r]
      · exact sentV
      · exact tmo
  | via =>
    rcases step_via h with ⟨line, rest, hb, rfl⟩ | ⟨rest, hb, rfl⟩
    · refine ⟨pB, pV ++ [.print line], pM, ?_⟩
      constructor <;>
        simp_all [linesOf_append, printsOf_append, donesOf_append, printsOf, donesOf]
    · refine ⟨pB, pV ++ [.wgDone], pM, ?_⟩
      apply inv_wgDone
      · exact hr
      · exact hB
      · simp [hV, hb]
      · exact hM
      · exact hM0
      · exact outB
      · simpa [printsOf_append, printsOf] using outV
      · exact outM
      · simp [donesOf_append, donesOf]; omega
      · exact sentB
      · intro r; simp [← sentV r]
      · exact tmo
  | recvBrasil =>
    obtain ⟨r, rest, ht, hb, rfl⟩ := step_recvBrasil h
    obtain ⟨hpM, hm⟩ := hM0 ht
    subst hpM
    refine ⟨pB ++ [.send r], pV, [], ?_⟩
    constructor
    · simp [hB, hb]
    · exact hV
    · intro c hc; simp at hc; subst hc; simp
    · intro hc; simp at hc
    · simpa [printsOf_append, printsOf] using outB
    · exact outV
    · exact outM
    · simp [donesOf_append, donesOf]; simpa using wg
    · intro r'
      have := sentB r'
      simp [ht] at this
      simp [this]
      exact eq_comm
    · intro r'
      have := sentV r'
      simp [ht] at this
      simp [this]
    · intro hc; simp at hc
    · intro c hc; simp [hr] at hc
    · intro g hg; simp [hr] at hg
    · intro _; exact hru hr
  | recvVia =>
    obtain ⟨r, rest, ht, hb, rfl⟩ := step_recvVia h
    obtain ⟨hpM, hm⟩ := hM0 ht
    subst hpM
    refine ⟨pB, pV ++ [.send r], [], ?_⟩
    constructor
    · exact hB
    · simp [hV, hb]
    · intro c hc; simp at hc; subst hc; simp
    · intro hc; simp at hc
    · exact outB
    · simpa [printsOf_append, printsOf] using outV
    · exact outM
    · simp [donesOf_append, donesOf]; simpa using wg
    · intro r'
      have := sentB r'
      simp [ht] at this
      simp [this]
    · intro r'
      have := sentV r'
      simp [ht] at this
      simp [this]
      exact eq_comm
    · intro hc; simp at hc
    · intro c hc; simp [hr] at hc
    · intro g hg; simp [hr] at hg
    · intro _; exact hru hr
  | ctxDone =>
    obtain ⟨ht, hto, rfl⟩ := step_ctxDone h
    obtain ⟨hpM, hm⟩ := hM0 ht
    subst hpM
    refine ⟨pB, pV, [], ?_⟩
    constructor
    · exact hB
    · exact hV
    · intro c hc; simp at hc; subst hc; simp
    · intro hc; simp at hc
    · exact outB
    · exact outV
    · exact outM
    · simpa using wg
    · intro r'
      have := sentB r'
      simp [ht] at this
      simp [this]
    · intro r'
      have := sentV r'
      simp [ht] at this
      simp [this]
    · intro _; exact hto
    · intro c hc; simp [hr] at hc
    · intro g hg; simp [hr] at hg
    · intro _; exact hru hr
  | main =>
    obtain ⟨ht, hcase⟩ := step_main h
    rcases hcase with ⟨line, rest, hm, rfl⟩ | ⟨rest, hm, rfl⟩ | ⟨hm, hw, rfl⟩
    · refine ⟨pB, pV, pM ++ [.print line], ?_⟩
      constructor <;>
        simp_all [linesOf_append, mainPrints_append, mainDones_append, mainPrints, mainDones]
    · refine ⟨pB, pV, pM ++ [.wgDone], ?_⟩
      apply inv_wgDone
      · exact hr
      · exact hB
      · exact hV
      · intro c hc; simp [hM c hc, hm]
      · intro hc; exact absurd hc ht
      · exact outB
      · exact outV
      · simpa [mainPrints_append, mainPrints] using outM
      · simp [mainDones_append, mainDones]; omega
      · exact sentB
      · exact sentV
      · exact tmo
    · refine ⟨pB, pV, pM, ?_⟩
      constructor
      · exact hB
      · exact hV
      · exact hM
      · exact hM0
      · exact outB
      · exact outV
      · exact outM
      · exact wg
      · exact sentB
      · exact sentV
      · exact tmo
      · intro c hc; simp at hc; exact ⟨hc.symm, hw, ht, hm⟩
      · intro g hg; simp at hg
      · intro hg; simp at hg

/-- A schedule preserves the invariant. -/
theorem run_inv {eB : List (Effect BrasilAPIResponse)} {eV : List (Effect ViaCEPResponse)}
    (evs : List Event) :
    ∀ {s s' : State} {pB : List (Effect BrasilAPIResponse)}
      {pV : List (Effect ViaCEPResponse)} {pM : List MainOp},
      Inv eB eV s pB pV pM → run s evs = some s' →
      ∃ pB' pV' pM', Inv eB eV s' pB' pV' pM' := by
  induction evs with
  | nil =>
    intro s s' pB pV pM inv h
    simp [run] at h
    subst h
    exact ⟨pB, pV, pM, inv⟩
  | cons e es ih =>
    intro s s' pB pV pM inv h
    simp only [run] at h
    cases hs : step s e with
    | none => simp [hs] at h
    | some s1 =>
      simp [hs] at h
      obtain ⟨pB1, pV1, pM1, inv1⟩ := step_inv inv hs
      exact ih inv1 h

/-- Every state reached from the initial state satisfies the invariant. -/
theorem reach_inv {cep : String} {xB xV : HttpExchange}
    {uB : String → Except String BrasilAPIResponse}
    {uV : String → Except String ViaCEPResponse} {evs : List Event} {s : State}
    (h : run (init cep xB xV uB uV) evs = some s) :
    ∃ pB pV pM, Inv (getBrasilAPI cep xB uB) (getViaCEP cep xV uV) s pB pV pM :=
  run_inv evs (init_inv cep xB xV uB uV) h

/-! ## The shape of a provider and what follows from the invariant -/

/-- A provider either prints one diagnostic and returns, or calls `wg.Done()`
and sends one record. -/
theorem getBrasilAPI_shape (cep : String) (x : HttpExchange)
    (u : String → Except String BrasilAPIResponse) :
    (∃ m, getBrasilAPI cep x u = [.print m]) ∨ (∃ r, getBrasilAPI cep x u = [.wgDone, .send r]) := by
  unfold getBrasilAPI
  split
  · exact Or.inl ⟨_, rfl⟩
  · exact Or.inl ⟨_, rfl⟩
  · split
    · exact Or.inl ⟨_, rfl⟩
    · split
      · exact Or.inl ⟨_, rfl⟩
      · split
        · exact Or.inl ⟨_, rfl⟩
        · exact Or.inr ⟨_, rfl⟩

theorem getViaCEP_shape (cep : String) (x : HttpExchange)
    (u : String → Except String ViaCEPResponse) :
    (∃ m, getViaCEP cep x u = [.print m]) ∨ (∃ r, getViaCEP cep x u = [.wgDone, .send r]) := by
  unfold getViaCEP
  split
  · exact Or.inl ⟨_, rfl⟩
  · exact Or.inl ⟨_, rfl⟩
  · split
    · exact Or.inl ⟨_, rfl⟩
    · split
      · exact Or.inl ⟨_, rfl⟩
      · split
        · exact Or.inl ⟨_, rfl⟩
        · exact Or.inr ⟨_, rfl⟩

theorem donesOf_nonneg {R : Type} (xs : List (Effect R)) : 0 ≤ donesOf xs := by
  induction xs with
  | nil => simp [donesOf]
  | cons a t ih => cases a <;> simp [donesOf] <;> omega

theorem mainDones_nonneg (xs : List MainOp) : 0 ≤ mainDones xs := by
  induction xs with
  | nil => simp [mainDones]
  | cons a t ih => cases a <;> simp [mainDones] <;> omega

/-- A provider has called `wg.Done()` at most once. -/
theorem donesOf_prefix_le {R : Type} {e p rem : List (Effect R)}
    (hs : (∃ m, e = [.print m]) ∨ (∃ r, e = [.wgDone, .send r])) (h : e = p ++ rem) :
    donesOf p ≤ 1 := by
  have h1 : donesOf e = donesOf p + donesOf rem := by rw [h, donesOf_append]
  have h2 := donesOf_nonneg rem
  have h3 : donesOf e ≤ 1 := by
    rcases hs with ⟨m, rfl⟩ | ⟨r, rfl⟩ <;> simp [donesOf]
  omega

/-- While `main` is blocked in the `select` the process is running. -/
theorem waiting_running {cep : String} {xB xV : HttpExchange}
    {uB : String → Except String BrasilAPIResponse}
    {uV : String → Except String ViaCEPResponse} {evs : List Event} {s : State}
    (h : run (init cep xB xV uB uV) evs = some s) (ht : s.taken = none) :
    s.status = .running := by
  obtain ⟨pB, pV, pM, inv⟩ := reach_inv h
  have hB := donesOf_prefix_le (getBrasilAPI_shape cep xB uB) inv.hB
  have hV := donesOf_prefix_le (getViaCEP_shape cep xV uV) inv.hV
  have hM : mainDones pM = 0 := by rw [(inv.hM0 ht).1]; rfl
  have hw := inv.wg
  cases hst : s.status with
  | running => rfl
  | exited c => exact absurd ht (inv.exited c hst).2.2.1
  | panicked g => have := inv.panicked g hst; omega

/-- When the `select` took the BrasilAPI case, the value received is the one
`getBrasilAPI` decoded, and that goroutine has returned. -/
theorem taken_brasil {cep : String} {xB xV : HttpExchange}
    {uB : String → Except String BrasilAPIResponse}
    {uV : String → Except String ViaCEPResponse} {evs : List Event} {s : State}
    {r : BrasilAPIResponse}
    (h : run (init cep xB xV uB uV) evs = some s) (ht : s.taken = some (.brasilAPI r)) :
    getBrasilAPI cep xB uB = [.wgDone, .send r] ∧ s.brasil = [] := by
  obtain ⟨pB, pV, pM, inv⟩ := reach_inv h
  have hmem := (inv.sentB r).2 ht
  have hB := inv.hB
  rcases getBrasilAPI_shape cep xB uB with ⟨m, hm⟩ | ⟨r0, hr0⟩
  · rw [hm] at hB
    rcases pB with _ | ⟨a, t⟩
    · simp at hmem
    · simp at hB
      obtain ⟨rfl, rfl, _⟩ := hB
      simp at hmem
  · rw [hr0] at hB ⊢
    rcases pB with _ | ⟨a, _ | ⟨b, t⟩⟩
    · simp at hmem
    · simp at hB
      obtain ⟨rfl, _⟩ := hB
      simp at hmem
    · simp at hB
      obtain ⟨rfl, rfl, rfl, hb⟩ := hB
      simp at hmem
      subst hmem
      exact ⟨rfl, hb⟩

theorem taken_via {cep : String} {xB xV : HttpExchange}
    {uB : String → Except String BrasilAPIResponse}
    {uV : String → Except String ViaCEPResponse} {evs : List Event} {s : State}
    {r : ViaCEPResponse}
    (h : run (init cep xB xV uB uV) evs = some s) (ht : s.taken = some (.viaCEP r)) :
    getViaCEP cep xV uV = [.wgDone, .send r] ∧ s.via = [] := by
  obtain ⟨pB, pV, pM, inv⟩ := reach_inv h
  have hmem := (inv.sentV r).2 ht
  have hV := inv.hV
  rcases getViaCEP_shape cep xV uV with ⟨m, hm⟩ | ⟨r0, hr0⟩
  · rw [hm] at hV
    rcases pV with _ | ⟨a, t⟩
    · simp at hmem
    · simp at hV
      obtain ⟨rfl, rfl, _⟩ := hV
      simp at hmem
  · rw [hr0] at hV ⊢
    rcases pV with _ | ⟨a, _ | ⟨b, t⟩⟩
    · simp at hmem
    · simp at hV
      obtain ⟨rfl, _⟩ := hV
      simp at hmem
    · simp at hV
      obtain ⟨rfl, rfl, rfl, hb⟩ := hV
      simp at hmem
      subst hmem
      exact ⟨rfl, hb⟩

/-- A provider blocked at its send is a provider that succeeded: the record
it sends is the one it decoded. -/
theorem at_send_brasil {cep : String} {xB xV : HttpExchange}
    {uB : String → Except String BrasilAPIResponse}
    {uV : String → Except String ViaCEPResponse} {evs : List Event} {s : State}
    {r : BrasilAPIResponse} {rest : List (Effect BrasilAPIResponse)}
    (h : run (init cep xB xV uB uV) evs = some s) (hb : s.brasil = .send r :: rest) :
    getBrasilAPI cep xB uB = [.wgDone, .send r] ∧ rest = [] := by
  obtain ⟨pB, pV, pM, inv⟩ := reach_inv h
  have hB := inv.hB
  rw [hb] at hB
  rcases getBrasilAPI_shape cep xB uB with ⟨m, hm⟩ | ⟨r0, hr0⟩
  · rw [hm] at hB
    rcases pB with _ | ⟨a, t⟩ <;> simp at hB
  · rw [hr0] at hB ⊢
    rcases pB with _ | ⟨a, _ | ⟨b, t⟩⟩ <;> simp at hB
    obtain ⟨_, rfl, rfl⟩ := hB
    exact ⟨rfl, rfl⟩

theorem at_send_via {cep : String} {xB xV : HttpExchange}
    {uB : String → Except String BrasilAPIResponse}
    {uV : String → Except String ViaCEPResponse} {evs : List Event} {s : State}
    {r : ViaCEPResponse} {rest : List (Effect ViaCEPResponse)}
    (h : run (init cep xB xV uB uV) evs = some s) (hb : s.via = .send r :: rest) :
    getViaCEP cep xV uV = [.wgDone, .send r] ∧ rest = [] := by
  obtain ⟨pB, pV, pM, inv⟩ := reach_inv h
  have hV := inv.hV
  rw [hb] at hV
  rcases getViaCEP_shape cep xV uV with ⟨m, hm⟩ | ⟨r0, hr0⟩
  · rw [hm] at hV
    rcases pV with _ | ⟨a, t⟩ <;> simp at hV
  · rw [hr0] at hV ⊢
    rcases pV with _ | ⟨a, _ | ⟨b, t⟩⟩ <;> simp at hV
    obtain ⟨_, rfl, rfl⟩ := hV
    exact ⟨rfl, rfl⟩

/-- The `select` receiving from `brasilAPI`, followed by the eight `Printf`
calls of that branch. -/
theorem select_brasil {s : State} {r : BrasilAPIResponse}
    {rest : List (Effect BrasilAPIResponse)}
    (hr : s.status = .running) (ht : s.taken = none) (hb : s.brasil = .send r :: rest) :
    step s .recvBrasil
        = some { s with brasil := rest, taken := some (.brasilAPI r),
                        main := branch (.brasilAPI r) }
      ∧ run { s with brasil := rest, taken := some (.brasilAPI r),
                     main := branch (.brasilAPI r) } (List.replicate 8 .main)
        = some { s with brasil := rest, taken := some (.brasilAPI r), main := [.wgDone],
                        output := s.output
                          ++ (brasilAPILines r).map fun l => (Goroutine.main, l) } := by
  constructor
  · simp [step, hr, ht, hb]
  · simp [run, step, hr, branch, brasilAPILines, List.replicate]

/-- The `select` receiving from `viaCEP`, followed by the eight `Printf`
calls of that branch. -/
theorem select_via {s : State} {r : ViaCEPResponse}
    {rest : List (Effect ViaCEPResponse)}
    (hr : s.status = .running) (ht : s.taken = none) (hb : s.via = .send r :: rest) :
    step s .recvVia
        = some { s with via := rest, taken := some (.viaCEP r),
                        main := branch (.viaCEP r) }
      ∧ run { s with via := rest, taken := some (.viaCEP r),
                     main := branch (.viaCEP r) } (List.replicate 8 .main)
        = some { s with via := rest, taken := some (.viaCEP r), main := [.wgDone],
                        output := s.output
                          ++ (viaCEPLines r).map fun l => (Goroutine.main, l) } := by
  constructor
  · simp [step, hr, ht, hb]
  · simp [run, step, hr, branch, viaCEPLines, List.replicate]

/-- The `ctx.Done()` case is not enabled before the deadline. -/
theorem ctxDone_blocked {s : State} (hto : s.timedOut = false) : step s .ctxDone = none := by
  unfold step
  split
  · simp only
    split
    · simp [hto]
    · rfl
  · rfl

/-- A receive is not enabled when the provider is not at its send. -/
theorem recvBrasil_blocked {s : State} (hb : ∀ r rest, s.brasil ≠ .send r :: rest) :
    step s .recvBrasil = none := by
  cases h : step s .recvBrasil with
  | none => rfl
  | some s' =>
    obtain ⟨r, rest, _, hb', _⟩ := step_recvBrasil h
    exact absurd hb' (hb r rest)

theorem recvVia_blocked {s : State} (hv : ∀ r rest, s.via ≠ .send r :: rest) :
    step s .recvVia = none := by
  cases h : step s .recvVia with
  | none => rfl
  | some s' =>
    obtain ⟨r, rest, _, hv', _⟩ := step_recvVia h
    exact absurd hv' (hv r rest)

theorem linesOf_append_main (out : List (Goroutine × String)) (ls : List String) :
    linesOf .main (out ++ ls.map fun l => (Goroutine.main, l)) = linesOf .main out ++ ls := by
  unfold linesOf
  rw [List.filter_append, List.map_append]
  congr 1
  induction ls with
  | nil => rfl
  | cons a t ih => simpa [List.filter_cons] using ih

/-- While `main` is blocked in the `select` it has printed nothing. -/
theorem waiting_silent {cep : String} {xB xV : HttpExchange}
    {uB : String → Except String BrasilAPIResponse}
    {uV : String → Except String ViaCEPResponse} {evs : List Event} {s : State}
    (h : run (init cep xB xV uB uV) evs = some s) (ht : s.taken = none) :
    linesOf .main s.output = [] := by
  obtain ⟨pB, pV, pM, inv⟩ := reach_inv h
  rw [inv.outM, (inv.hM0 ht).1]
  rfl

/-- Running two schedules one after the other. -/
theorem run_append (s : State) (es es' : List Event) :
    run s (es ++ es') = (run s es).bind fun s' => run s' es' := by
  induction es generalizing s with
  | nil => simp [run]
  | cons e t ih =>
    simp only [List.cons_append, run]
    cases step s e with
    | none => rfl
    | some s1 => simpa using ih s1

/-- An event that is the `select` taking a case needs `main` blocked in the
`select` and decides; every other event leaves the decision alone. -/
theorem step_taken {s s' : State} {e : Event} (h : step s e = some s') :
    (e.isSelect = true → s.taken = none ∧ s'.taken ≠ none)
      ∧ (e.isSelect = false → s'.taken = s.taken) := by
  cases e with
  | deadline => obtain ⟨_, rfl⟩ := step_deadline h; simp [Event.isSelect]
  | brasil =>
    rcases step_brasil h with ⟨line, rest, hb, rfl⟩ | ⟨rest, hb, rfl⟩
    · simp [Event.isSelect]
    · simp [Event.isSelect, (wgDone_fields _ _).2.2.2.2.1]
  | via =>
    rcases step_via h with ⟨line, rest, hb, rfl⟩ | ⟨rest, hb, rfl⟩
    · simp [Event.isSelect]
    · simp [Event.isSelect, (wgDone_fields _ _).2.2.2.2.1]
  | recvBrasil => obtain ⟨r, rest, ht, hb, rfl⟩ := step_recvBrasil h; simp [Event.isSelect, ht]
  | recvVia => obtain ⟨r, rest, ht, hb, rfl⟩ := step_recvVia h; simp [Event.isSelect, ht]
  | ctxDone => obtain ⟨ht, hto, rfl⟩ := step_ctxDone h; simp [Event.isSelect, ht]
  | main =>
    obtain ⟨ht, hcase⟩ := step_main h
    rcases hcase with ⟨line, rest, hm, rfl⟩ | ⟨rest, hm, rfl⟩ | ⟨hm, hw, rfl⟩
    · simp [Event.isSelect]
    · simp [Event.isSelect, (wgDone_fields _ _).2.2.2.2.1]
    · simp [Event.isSelect]

/-- Once the `select` has taken a case, no schedule changes it, and no
schedule contains another `select` event. -/
theorem decided_stable {c : SelectCase} (evs : List Event) :
    ∀ {s s' : State}, s.taken = some c → run s evs = some s' →
      s'.taken = some c ∧ evs.filter Event.isSelect = [] := by
  induction evs with
  | nil =>
    intro s s' ht h
    simp [run] at h
    subst h
    exact ⟨ht, rfl⟩
  | cons e es ih =>
    intro s s' ht h
    simp only [run] at h
    cases hs : step s e with
    | none => simp [hs] at h
    | some s1 =>
      simp [hs] at h
      obtain ⟨h1, h2⟩ := step_taken hs
      cases hsel : e.isSelect with
      | true => have := (h1 hsel).1; simp [ht] at this
      | false =>
        have ht1 : s1.taken = some c := by rw [h2 hsel]; exact ht
        obtain ⟨h3, h4⟩ := ih ht1 h
        exact ⟨h3, by simp [List.filter_cons, hsel, h4]⟩

/-- A schedule contains at most one `select` event, and none exactly when
`main` is still blocked in the `select` at its end. -/
theorem waiting_once (evs : List Event) :
    ∀ {s s' : State}, s.taken = none → run s evs = some s' →
      (evs.filter Event.isSelect).length ≤ 1
        ∧ (s'.taken = none ↔ evs.filter Event.isSelect = []) := by
  induction evs with
  | nil =>
    intro s s' ht h
    simp [run] at h
    subst h
    simp [ht]
  | cons e es ih =>
    intro s s' ht h
    simp only [run] at h
    cases hs : step s e with
    | none => simp [hs] at h
    | some s1 =>
      simp [hs] at h
      obtain ⟨h1, h2⟩ := step_taken hs
      cases hsel : e.isSelect with
      | true =>
        obtain ⟨_, hne⟩ := h1 hsel
        cases ht1 : s1.taken with
        | none => exact absurd ht1 hne
        | some c =>
          obtain ⟨h3, h4⟩ := decided_stable es ht1 h
          simp [List.filter_cons, hsel, h4, h3]
      | false =>
        have ht1 : s1.taken = none := by rw [h2 hsel]; exact ht
        obtain ⟨h3, h4⟩ := ih ht1 h
        rw [List.filter_cons, hsel]
        exact ⟨h3, h4⟩

/-- The `select` taking the `ctx.Done()` case, followed by its `Println`. -/
theorem select_ctxDone {s : State} (hr : s.status = .running) (ht : s.taken = none)
    (hto : s.timedOut = true) :
    step s .ctxDone = some { s with taken := some .ctxDone, main := branch .ctxDone }
      ∧ step { s with taken := some .ctxDone, main := branch .ctxDone } .main
        = some { s with taken := some .ctxDone, main := [],
                        output := s.output ++ [(.main, "Tempo limite esgotado!\n")] } := by
  constructor
  · simp [step, hr, ht, hto]
  · simp [step, hr, branch, ctxDoneLines]

/-- A line of the output is among the lines of the goroutine that wrote it. -/
theorem mem_linesOf {g : Goroutine} {l : String} {out : List (Goroutine × String)}
    (h : (g, l) ∈ out) : l ∈ linesOf g out := by
  unfold linesOf
  simp only [List.mem_map, List.mem_filter]
  exact ⟨(g, l), ⟨h, by simp⟩, rfl⟩

/-- What a provider that fails has printed: nothing before it returns, its
one diagnostic after. -/
theorem failed_lines {R : Type} {p rem : List (Effect R)} {m : String}
    (h : [Effect.print m] = p ++ rem) :
    (rem = [] → printsOf p = [m]) ∧ (printsOf p = [] ∨ printsOf p = [m])
      ∧ donesOf p = 0 ∧ ∀ r, Effect.send r ∉ p := by
  rcases p with _ | ⟨a, t⟩
  · simp at h
    subst h
    simp [printsOf, donesOf]
  · simp at h
    obtain ⟨rfl, rfl, rfl⟩ := h
    simp [printsOf, donesOf]

/-- What `main` has printed in the `ctx.Done()` branch: nothing yet, or the
timeout line. -/
theorem ctxDone_lines {p rem : List MainOp} (h : branch .ctxDone = p ++ rem) :
    (mainPrints p = [] ∨ mainPrints p = ["Tempo limite esgotado!\n"]) ∧ mainDones p = 0 := by
  simp only [branch, ctxDoneLines, List.map] at h
  rcases p with _ | ⟨a, t⟩
  · simp [mainPrints, mainDones]
  · simp at h
    obtain ⟨rfl, rfl, rfl⟩ := h
    simp [mainPrints, mainDones]

/-- A schedule from the start that passes through `s`. -/
theorem run_through {s0 s s1 s' : State} {evs evs' : List Event} {e : Event}
    (h : run s0 evs = some s) (h1 : step s e = some s1) (h' : run s1 evs' = some s') :
    run s0 (evs ++ e :: evs') = some s' := by
  rw [run_append, h]
  simp [run, h1, h']

theorem mainPrints_branch_brasilAPI (r : BrasilAPIResponse) :
    mainPrints (branch (.brasilAPI r)) = brasilAPILines r := by
  simp [branch, brasilAPILines, mainPrints]

theorem mainPrints_branch_viaCEP (r : ViaCEPResponse) :
    mainPrints (branch (.viaCEP r)) = viaCEPLines r := by
  simp [branch, viaCEPLines, mainPrints]

theorem mainPrints_branch_ctxDone : mainPrints (branch .ctxDone) = ctxDoneLines := by
  simp [branch, ctxDoneLines, mainPrints]

/-- What `main` has printed is the beginning of the lines of the branch it
took. -/
theorem main_lines_begin {cep : String} {xB xV : HttpExchange}
    {uB : String → Except String BrasilAPIResponse}
    {uV : String → Except String ViaCEPResponse} {evs : List Event} {s : State}
    {c : SelectCase}
    (h : run (init cep xB xV uB uV) evs = some s) (ht : s.taken = some c) :
    linesOf .main s.output ++ mainPrints s.main = mainPrints (branch c) := by
  obtain ⟨pB, pV, pM, inv⟩ := reach_inv h
  rw [inv.outM, inv.hM c ht, mainPrints_append]

/-- What a provider that succeeded and returned has done: no print, one
`wg.Done()`. -/
theorem sent_lines {R : Type} {p : List (Effect R)} {r : R}
    (h : [Effect.wgDone, Effect.send r] = p ++ []) : printsOf p = [] ∧ donesOf p = 1 := by
  simp at h
  subst h
  simp [printsOf, donesOf]

/-- Once the `select` has decided, a provider at its send stays there: no
event moves it. -/
theorem blocked_brasil_step {s s' : State} {e : Event} {c : SelectCase}
    {r : BrasilAPIResponse} {rest : List (Effect BrasilAPIResponse)}
    (ht : s.taken = some c) (hb : s.brasil = .send r :: rest) (h : step s e = some s') :
    s'.taken = some c ∧ s'.brasil = .send r :: rest := by
  cases e with
  | deadline => obtain ⟨_, rfl⟩ := step_deadline h; exact ⟨ht, hb⟩
  | brasil =>
    rcases step_brasil h with ⟨line, rest', hb', _⟩ | ⟨rest', hb', _⟩ <;>
      simp [hb] at hb'
  | via =>
    rcases step_via h with ⟨line, rest', hv', rfl⟩ | ⟨rest', hv', rfl⟩
    · exact ⟨ht, hb⟩
    · obtain ⟨_, _, f3, _, f5, _, _⟩ := wgDone_fields .viaCEP { s with via := rest' }
      rw [f3, f5]; exact ⟨ht, hb⟩
  | recvBrasil => obtain ⟨_, _, ht', _⟩ := step_recvBrasil h; simp [ht] at ht'
  | recvVia => obtain ⟨_, _, ht', _⟩ := step_recvVia h; simp [ht] at ht'
  | ctxDone => obtain ⟨ht', _⟩ := step_ctxDone h; simp [ht] at ht'
  | main =>
    obtain ⟨_, hcase⟩ := step_main h
    rcases hcase with ⟨line, rest', hm, rfl⟩ | ⟨rest', hm, rfl⟩ | ⟨hm, hw, rfl⟩
    · exact ⟨ht, hb⟩
    · obtain ⟨_, _, f3, _, f5, _, _⟩ := wgDone_fields .main { s with main := rest' }
      rw [f3, f5]; exact ⟨ht, hb⟩
    · exact ⟨ht, hb⟩

theorem blocked_via_step {s s' : State} {e : Event} {c : SelectCase}
    {r : ViaCEPResponse} {rest : List (Effect ViaCEPResponse)}
    (ht : s.taken = some c) (hv : s.via = .send r :: rest) (h : step s e = some s') :
    s'.taken = some c ∧ s'.via = .send r :: rest := by
  cases e with
  | deadline => obtain ⟨_, rfl⟩ := step_deadline h; exact ⟨ht, hv⟩
  | via =>
    rcases step_via h with ⟨line, rest', hv', _⟩ | ⟨rest', hv', _⟩ <;>
      simp [hv] at hv'
  | brasil =>
    rcases step_brasil h with ⟨line, rest', hb', rfl⟩ | ⟨rest', hb', rfl⟩
    · exact ⟨ht, hv⟩
    · obtain ⟨_, _, _, f4, f5, _, _⟩ := wgDone_fields .brasilAPI { s with brasil := rest' }
      rw [f4, f5]; exact ⟨ht, hv⟩
  | recvBrasil => obtain ⟨_, _, ht', _⟩ := step_recvBrasil h; simp [ht] at ht'
  | recvVia => obtain ⟨_, _, ht', _⟩ := step_recvVia h; simp [ht] at ht'
  | ctxDone => obtain ⟨ht', _⟩ := step_ctxDone h; simp [ht] at ht'
  | main =>
    obtain ⟨_, hcase⟩ := step_main h
    rcases hcase with ⟨line, rest', hm, rfl⟩ | ⟨rest', hm, rfl⟩ | ⟨hm, hw, rfl⟩
    · exact ⟨ht, hv⟩
    · obtain ⟨_, _, _, f4, f5, _, _⟩ := wgDone_fields .main { s with main := rest' }
      rw [f4, f5]; exact ⟨ht, hv⟩
    · exact ⟨ht, hv⟩

theorem blocked_brasil_run {c : SelectCase} {r : BrasilAPIResponse}
    {rest : List (Effect BrasilAPIResponse)} (evs : List Event) :
    ∀ {s s' : State}, s.taken = some c → s.brasil = .send r :: rest →
      run s evs = some s' → s'.brasil = .send r :: rest := by
  induction evs with
  | nil =>
    intro s s' _ hb h
    simp [run] at h
    subst h
    exact hb
  | cons e es ih =>
    intro s s' ht hb h
    simp only [run] at h
    cases hs : step s e with
    | none => simp [hs] at h
    | some s1 =>
      simp [hs] at h
      obtain ⟨ht1, hb1⟩ := blocked_brasil_step ht hb hs
      exact ih ht1 hb1 h

theorem blocked_via_run {c : SelectCase} {r : ViaCEPResponse}
    {rest : List (Effect ViaCEPResponse)} (evs : List Event) :
    ∀ {s s' : State}, s.taken = some c → s.via = .send r :: rest →
      run s evs = some s' → s'.via = .send r :: rest := by
  induction evs with
  | nil =>
    intro s s' _ hv h
    simp [run] at h
    subst h
    exact hv
  | cons e es ih =>
    intro s s' ht hv h
    simp only [run] at h
    cases hs : step s e with
    | none => simp [hs] at h
    | some s1 =>
      simp [hs] at h
      obtain ⟨ht1, hv1⟩ := blocked_via_step ht hv hs
      exact ih ht1 hv1 h

/-- When both providers fail, the counter stays positive for ever and the
process never exits: `wg.Wait()` cannot return. -/
theorem both_fail_never_exits {cep : String} {xB xV : HttpExchange}
    {uB : String → Except String BrasilAPIResponse}
    {uV : String → Except String ViaCEPResponse} {evs : List Event} {s : State}
    {mB mV : String}
    (hB : getBrasilAPI cep xB uB = [.print mB]) (hV : getViaCEP cep xV uV = [.print mV])
    (h : run (init cep xB xV uB uV) evs = some s) :
    s.wg = 2 ∧ ∀ code, s.status ≠ .exited code := by
  obtain ⟨pB, pV, pM, inv⟩ := reach_inv h
  have hB' := inv.hB
  have hV' := inv.hV
  rw [hB] at hB'
  rw [hV] at hV'
  have hM : mainDones pM = 0 := by
    cases ht : s.taken with
    | none => rw [(inv.hM0 ht).1]; rfl
    | some c =>
      cases c with
      | brasilAPI r => have := (taken_brasil h ht).1; simp [hB] at this
      | viaCEP r => have := (taken_via h ht).1; simp [hV] at this
      | ctxDone => exact (ctxDone_lines (inv.hM _ ht)).2
  have hw := inv.wg
  rw [(failed_lines hB').2.2.1, (failed_lines hV').2.2.1, hM] at hw
  have hw2 : s.wg = 2 := by simpa using hw
  refine ⟨hw2, fun code hc => ?_⟩
  have := (inv.exited code hc).2.1
  omega

/-! ## The claims -/

/-- C1 (first success wins). In every state reached from the start in which
the 2-second deadline has not expired, one provider is at its channel send
with the record `r` and the other provider has not yet produced any outcome:
the sender did decode `r` from a successful exchange, `main` is blocked in
the `select`, the only case of the `select` that is enabled is the one of the
sender, and taking it and running the eight `Printf` calls of the branch
prints exactly the six fields of `r`, unchanged, under the header of that
provider and followed by that provider's own source label. -/
theorem first_success_wins (cep : String) (xB xV : HttpExchange)
    (uB : String → Except String BrasilAPIResponse)
    (uV : String → Except String ViaCEPResponse) (evs : List Event) (s : State)
    (h : run (init cep xB xV uB uV) evs = some s) (hto : s.timedOut = false) :
    (∀ r, s.brasil = [.send r] → s.via = getViaCEP cep xV uV →
      getBrasilAPI cep xB uB = [.wgDone, .send r] ∧ s.taken = none
        ∧ step s .recvVia = none ∧ step s .ctxDone = none
        ∧ ∃ s1 s2, step s .recvBrasil = some s1 ∧ run s1 (List.replicate 8 .main) = some s2
            ∧ s2.taken = some (.brasilAPI r)
            ∧ s2.output = s.output ++ (brasilAPILines r).map (fun l => (Goroutine.main, l))
            ∧ linesOf .main s2.output
                = ["\nResultado da BrasilAPI:\n", "CEP: " ++ r.Cep ++ "\n",
                   "Logradouro: " ++ r.Logradouro ++ "\n", "Bairro: " ++ r.Bairro ++ "\n",
                   "Localidade: " ++ r.Localidade ++ "\n", "UF: " ++ r.Uf ++ "\n",
                   "Complemento: " ++ r.Complemento ++ "\n", "Fonte: BrasilAPI\n"])
    ∧ (∀ r, s.via = [.send r] → s.brasil = getBrasilAPI cep xB uB →
      getViaCEP cep xV uV = [.wgDone, .send r] ∧ s.taken = none
        ∧ step s .recvBrasil = none ∧ step s .ctxDone = none
        ∧ ∃ s1 s2, step s .recvVia = some s1 ∧ run s1 (List.replicate 8 .main) = some s2
            ∧ s2.taken = some (.viaCEP r)
            ∧ s2.output = s.output ++ (viaCEPLines r).map (fun l => (Goroutine.main, l))
            ∧ linesOf .main s2.output
                = ["\nResultado da ViaCEP:\n", "CEP: " ++ r.Cep ++ "\n",
                   "Logradouro: " ++ r.Logradouro ++ "\n", "Bairro: " ++ r.Bairro ++ "\n",
                   "Localidade: " ++ r.Localidade ++ "\n", "UF: " ++ r.Uf ++ "\n",
                   "Complemento: " ++ r.Complemento ++ "\n", "Fonte: ViaCEP\n"]) := by
  obtain ⟨pB, pV, pM, inv⟩ := reach_inv h
  constructor
  · intro r hb hv
    have hne : s.taken = none := by
      cases ht : s.taken with
      | none => rfl
      | some c =>
        cases c with
        | brasilAPI r' => have := (taken_brasil h ht).2; simp [hb] at this
        | viaCEP r' =>
          obtain ⟨h1, h2⟩ := taken_via h ht
          rw [hv, h1] at h2; simp at h2
        | ctxDone => have := inv.tmo ht; simp [hto] at this
    have hr := waiting_running h hne
    have hrecv : step s .recvVia = none := by
      apply recvVia_blocked
      intro r' rest hv'
      rcases getViaCEP_shape cep xV uV with ⟨m, hm⟩ | ⟨r0, hr0⟩
      · rw [hv, hm] at hv'; simp at hv'
      · rw [hv, hr0] at hv'; simp at hv'
    obtain ⟨h1, h2⟩ := select_brasil hr hne hb
    refine ⟨(at_send_brasil h hb).1, hne, hrecv, ctxDone_blocked hto, _, _, h1, h2, rfl, rfl, ?_⟩
    simp only [linesOf_append_main, waiting_silent h hne]
    rfl
  · intro r hv hb
    have hne : s.taken = none := by
      cases ht : s.taken with
      | none => rfl
      | some c =>
        cases c with
        | brasilAPI r' =>
          obtain ⟨h1, h2⟩ := taken_brasil h ht
          rw [hb, h1] at h2; simp at h2
        | viaCEP r' => have := (taken_via h ht).2; simp [hv] at this
        | ctxDone => have := inv.tmo ht; simp [hto] at this
    have hr := waiting_running h hne
    have hrecv : step s .recvBrasil = none := by
      apply recvBrasil_blocked
      intro r' rest hb'
      rcases getBrasilAPI_shape cep xB uB with ⟨m, hm⟩ | ⟨r0, hr0⟩
      · rw [hb, hm] at hb'; simp at hb'
      · rw [hb, hr0] at hb'; simp at hb'
    obtain ⟨h1, h2⟩ := select_via hr hne hv
    refine ⟨(at_send_via h hv).1, hne, hrecv, ctxDone_blocked hto, _, _, h1, h2, rfl, rfl, ?_⟩
    simp only [linesOf_append_main, waiting_silent h hne]
    rfl

/-- Witness of C1: both providers answer 200 for CEP 01310-100 and one of
them reaches its send first. -/
theorem first_success_wins_witness :
    (run (init "01310-100" ok200 ok200 okB okV) [.brasil] = some brasilFirst
      ∧ brasilFirst.timedOut = false
      ∧ brasilFirst.brasil = [.send paulistaB]
      ∧ brasilFirst.via = getViaCEP "01310-100" ok200 okV
      ∧ getBrasilAPI "01310-100" ok200 okB = [.wgDone, .send paulistaB]
      ∧ brasilFirst.taken = none)
    ∧ (run (init "01310-100" ok200 ok200 okB okV) [.via] = some viaFirst
      ∧ viaFirst.timedOut = false
      ∧ viaFirst.via = [.send paulistaV]
      ∧ viaFirst.brasil = getBrasilAPI "01310-100" ok200 okB
      ∧ getViaCEP "01310-100" ok200 okV = [.wgDone, .send paulistaV]
      ∧ viaFirst.taken = none) :=
  have hB := (first_success_wins "01310-100" ok200 ok200 okB okV [.brasil] brasilFirst
    rfl rfl).1 paulistaB rfl rfl
  have hV := (first_success_wins "01310-100" ok200 ok200 okB okV [.via] viaFirst
    rfl rfl).2 paulistaV rfl rfl
  ⟨⟨rfl, rfl, rfl, rfl, hB.1, hB.2.1⟩, ⟨rfl, rfl, rfl, rfl, hV.1, hV.2.1⟩⟩

/-- C5 (a single failure does not short-circuit the race). In every state
reached from the start in which the deadline has not expired, one provider
has failed and returned, and the other provider is at its channel send with
the record `r`: the failure was only printed, `main` is still blocked in the
`select` and the process is running, the only enabled case of the `select` is
the one of the sender, and taking it and running the eight `Printf` calls of
the branch prints exactly the header of the late provider, the six fields of
`r`, unchanged, and that provider's own source label (no failure or timeout
message). -/
theorem late_success_after_failure (cep : String) (xB xV : HttpExchange)
    (uB : String → Except String BrasilAPIResponse)
    (uV : String → Except String ViaCEPResponse) (evs : List Event) (s : State)
    (h : run (init cep xB xV uB uV) evs = some s) (hto : s.timedOut = false) :
    (∀ msg r, getViaCEP cep xV uV = [.print msg] → s.via = [] → s.brasil = [.send r] →
      linesOf .viaCEP s.output = [msg] ∧ s.taken = none ∧ s.status = .running
        ∧ step s .recvVia = none ∧ step s .ctxDone = none
        ∧ ∃ s1 s2, step s .recvBrasil = some s1 ∧ run s1 (List.replicate 8 .main) = some s2
            ∧ s2.taken = some (.brasilAPI r)
            ∧ s2.output = s.output ++ (brasilAPILines r).map (fun l => (Goroutine.main, l))
            ∧ linesOf .main s2.output
                = ["\nResultado da BrasilAPI:\n", "CEP: " ++ r.Cep ++ "\n",
                   "Logradouro: " ++ r.Logradouro ++ "\n", "Bairro: " ++ r.Bairro ++ "\n",
                   "Localidade: " ++ r.Localidade ++ "\n", "UF: " ++ r.Uf ++ "\n",
                   "Complemento: " ++ r.Complemento ++ "\n", "Fonte: BrasilAPI\n"])
    ∧ (∀ msg r, getBrasilAPI cep xB uB = [.print msg] → s.brasil = [] → s.via = [.send r] →
      linesOf .brasilAPI s.output = [msg] ∧ s.taken = none ∧ s.status = .running
        ∧ step s .recvBrasil = none ∧ step s .ctxDone = none
        ∧ ∃ s1 s2, step s .recvVia = some s1 ∧ run s1 (List.replicate 8 .main) = some s2
            ∧ s2.taken = some (.viaCEP r)
            ∧ s2.output = s.output ++ (viaCEPLines r).map (fun l => (Goroutine.main, l))
            ∧ linesOf .main s2.output
                = ["\nResultado da ViaCEP:\n", "CEP: " ++ r.Cep ++ "\n",
                   "Logradouro: " ++ r.Logradouro ++ "\n", "Bairro: " ++ r.Bairro ++ "\n",
                   "Localidade: " ++ r.Localidade ++ "\n", "UF: " ++ r.Uf ++ "\n",
                   "Complemento: " ++ r.Complemento ++ "\n", "Fonte: ViaCEP\n"]) := by
  obtain ⟨pB, pV, pM, inv⟩ := reach_inv h
  constructor
  · intro msg r hfail hv hb
    have hV := inv.hV
    rw [hfail, hv] at hV
    have hne : s.taken = none := by
      cases ht : s.taken with
      | none => rfl
      | some c =>
        cases c with
        | brasilAPI r' => have := (taken_brasil h ht).2; simp [hb] at this
        | viaCEP r' => have := (taken_via h ht).1; simp [hfail] at this
        | ctxDone => have := inv.tmo ht; simp [hto] at this
    have hr := waiting_running h hne
    obtain ⟨h1, h2⟩ := select_brasil hr hne hb
    refine ⟨?_, hne, hr, recvVia_blocked (by simp [hv]), ctxDone_blocked hto,
      _, _, h1, h2, rfl, rfl, ?_⟩
    · rw [inv.outV]; exact (failed_lines hV).1 rfl
    · simp only [linesOf_append_main, waiting_silent h hne]
      rfl
  · intro msg r hfail hb hv
    have hB := inv.hB
    rw [hfail, hb] at hB
    have hne : s.taken = none := by
      cases ht : s.taken with
      | none => rfl
      | some c =>
        cases c with
        | brasilAPI r' => have := (taken_brasil h ht).1; simp [hfail] at this
        | viaCEP r' => have := (taken_via h ht).2; simp [hv] at this
        | ctxDone => have := inv.tmo ht; simp [hto] at this
    have hr := waiting_running h hne
    obtain ⟨h1, h2⟩ := select_via hr hne hv
    refine ⟨?_, hne, hr, recvBrasil_blocked (by simp [hb]), ctxDone_blocked hto,
      _, _, h1, h2, rfl, rfl, ?_⟩
    · rw [inv.outB]; exact (failed_lines hB).1 rfl
    · simp only [linesOf_append_main, waiting_silent h hne]
      rfl

/-- Witness of C5: one provider is refused, the other answers 200 later. -/
theorem late_success_after_failure_witness :
    (run (init "01310-100" ok200 refused okB okV) [.via, .brasil] = some viaFailedBrasilSends
      ∧ viaFailedBrasilSends.timedOut = false
      ∧ getViaCEP "01310-100" refused okV
          = [.print "Erro ao obter resposta ViaCEP para CEP 01310-100: connection refused\n"]
      ∧ viaFailedBrasilSends.via = []
      ∧ viaFailedBrasilSends.brasil = [.send paulistaB]
      ∧ viaFailedBrasilSends.taken = none)
    ∧ (run (init "01310-100" refused ok200 okB okV) [.brasil, .via] = some brasilFailedViaSends
      ∧ brasilFailedViaSends.timedOut = false
      ∧ getBrasilAPI "01310-100" refused okB
          = [.print "Erro ao obter resposta BrasilAPI para CEP 01310-100: connection refused\n"]
      ∧ brasilFailedViaSends.brasil = []
      ∧ brasilFailedViaSends.via = [.send paulistaV]
      ∧ brasilFailedViaSends.taken = none) :=
  have hB := (late_success_after_failure "01310-100" ok200 refused okB okV [.via, .brasil]
    viaFailedBrasilSends rfl rfl).1 _ paulistaB rfl rfl rfl
  have hV := (late_success_after_failure "01310-100" refused ok200 okB okV [.brasil, .via]
    brasilFailedViaSends rfl rfl).2 _ paulistaV rfl rfl rfl
  ⟨⟨rfl, rfl, rfl, rfl, rfl, hB.2.1⟩, ⟨rfl, rfl, rfl, rfl, rfl, hV.2.1⟩⟩

/-- C6, counterexample. Both providers answer 200 but are still pending when
the 2-second deadline expires, so no success was received before it. The
`select` gives `ctx.Done()` no priority: BrasilAPI then reaches its send, the
`select` takes that receive, and `main` prints the address block and exits
with code 0 without ever printing the timeout line. -/
theorem late_post_counterexample :
    run (init "01310-100" ok200 ok200 okB okV) [.deadline] = some deadlineBothPending
      ∧ deadlineBothPending.timedOut = true ∧ deadlineBothPending.taken = none
      ∧ deadlineBothPending.brasil = getBrasilAPI "01310-100" ok200 okB
      ∧ deadlineBothPending.via = getViaCEP "01310-100" ok200 okV
      ∧ (run deadlineBothPending
          ([.brasil, .recvBrasil] ++ List.replicate 9 .main ++ [.main])).map
          (fun s => (s.status, s.taken, linesOf .main s.output))
        = some (.exited 0, some (.brasilAPI paulistaB),
            ["\nResultado da BrasilAPI:\n", "CEP: 01310-100\n", "Logradouro: Av. Paulista\n",
             "Bairro: Bela Vista\n", "Localidade: São Paulo\n", "UF: SP\n", "Complemento: \n",
             "Fonte: BrasilAPI\n"]) := by
  refine ⟨rfl, rfl, rfl, rfl, rfl, rfl⟩

/-- C6, amended. In every state reached from the start in which the 2-second
deadline has expired, `main` is still blocked in the `select` (no success was
received) and neither provider is at its send (both are still pending, or
only failures arrived): when the `select` acts in that state no receive case
is enabled, it takes the `ctx.Done()` case, `main` prints the timeout line,
and whatever happens afterwards `main` never prints anything else, so no
address is presented. When moreover both providers have returned (only
failures arrived), no schedule at all leads to another decision or to an
address. -/
theorem timeout_decision (cep : String) (xB xV : HttpExchange)
    (uB : String → Except String BrasilAPIResponse)
    (uV : String → Except String ViaCEPResponse) (evs : List Event) (s : State)
    (h : run (init cep xB xV uB uV) evs = some s)
    (hto : s.timedOut = true) (ht : s.taken = none)
    (hb : ∀ r rest, s.brasil ≠ .send r :: rest) (hv : ∀ r rest, s.via ≠ .send r :: rest) :
    step s .recvBrasil = none ∧ step s .recvVia = none
      ∧ (∃ s1 s2, step s .ctxDone = some s1 ∧ step s1 .main = some s2
          ∧ s2.taken = some .ctxDone ∧ s2.main = []
          ∧ s2.output = s.output ++ [(.main, "Tempo limite esgotado!\n")]
          ∧ linesOf .main s2.output = ["Tempo limite esgotado!\n"]
          ∧ ∀ evs' s3, run s1 evs' = some s3 →
              s3.taken = some .ctxDone
                ∧ (linesOf .main s3.output = []
                  ∨ linesOf .main s3.output = ["Tempo limite esgotado!\n"]))
      ∧ (s.brasil = [] → s.via = [] → ∀ evs' s', run s evs' = some s' →
          (s'.taken = none ∨ s'.taken = some .ctxDone)
            ∧ (linesOf .main s'.output = []
              ∨ linesOf .main s'.output = ["Tempo limite esgotado!\n"])) := by
  have hr := waiting_running h ht
  obtain ⟨h1, h2⟩ := select_ctxDone hr ht hto
  refine ⟨recvBrasil_blocked hb, recvVia_blocked hv,
    ⟨_, _, h1, h2, rfl, rfl, rfl, ?_, ?_⟩, ?_⟩
  · simp [linesOf_append, waiting_silent h ht]
  · intro evs' s3 h3
    have ht3 := (decided_stable (c := .ctxDone) evs' rfl h3).1
    obtain ⟨pB, pV, pM, inv⟩ := reach_inv (run_through h h1 h3)
    refine ⟨ht3, ?_⟩
    rw [inv.outM]
    exact (ctxDone_lines (inv.hM _ ht3)).1
  · intro hb0 hv0 evs' s' h'
    obtain ⟨pB, pV, pM, inv⟩ := reach_inv h
    have hr' : run (init cep xB xV uB uV) (evs ++ evs') = some s' := by
      rw [run_append, h]; simpa using h'
    cases ht' : s'.taken with
    | none => exact ⟨Or.inl rfl, Or.inl (waiting_silent hr' ht')⟩
    | some c =>
      cases c with
      | brasilAPI r =>
        exfalso
        have hok := (taken_brasil hr' ht').1
        have hB := inv.hB
        rw [hok, hb0] at hB
        have hmem : Effect.send r ∈ pB := by
          simp only [List.append_nil] at hB
          rw [← hB]; simp
        have := (inv.sentB r).1 hmem
        simp [ht] at this
      | viaCEP r =>
        exfalso
        have hok := (taken_via hr' ht').1
        have hV := inv.hV
        rw [hok, hv0] at hV
        have hmem : Effect.send r ∈ pV := by
          simp only [List.append_nil] at hV
          rw [← hV]; simp
        have := (inv.sentV r).1 hmem
        simp [ht] at this
      | ctxDone =>
        refine ⟨Or.inr rfl, ?_⟩
        obtain ⟨pB', pV', pM', inv'⟩ := reach_inv hr'
        rw [inv'.outM]
        exact (ctxDone_lines (inv'.hM _ ht')).1

/-- Witness of the amended C6: both providers are refused and the deadline
expires. -/
theorem timeout_decision_witness :
    run (init "01310-100" refused refused okB okV) [.brasil, .via, .deadline]
        = some bothFailedDeadline
      ∧ bothFailedDeadline.timedOut = true ∧ bothFailedDeadline.taken = none
      ∧ (∀ r rest, bothFailedDeadline.brasil ≠ .send r :: rest)
      ∧ (∀ r rest, bothFailedDeadline.via ≠ .send r :: rest)
      ∧ bothFailedDeadline.brasil = [] ∧ bothFailedDeadline.via = []
      ∧ step bothFailedDeadline .recvBrasil = none
      ∧ step bothFailedDeadline .recvVia = none
      ∧ (bothFailedDeadline.taken = none ∨ bothFailedDeadline.taken = some .ctxDone) :=
  have hb : ∀ r rest, bothFailedDeadline.brasil ≠ .send r :: rest := fun _ _ h => by
    simp [bothFailedDeadline] at h
  have hv : ∀ r rest, bothFailedDeadline.via ≠ .send r :: rest := fun _ _ h => by
    simp [bothFailedDeadline] at h
  have hT := timeout_decision "01310-100" refused refused okB okV [.brasil, .via, .deadline]
    bothFailedDeadline rfl rfl rfl hb hv
  ⟨rfl, rfl, rfl, hb, hv, rfl, rfl, hT.1, hT.2.1,
    (hT.2.2.2 rfl rfl [] bothFailedDeadline rfl).1⟩

/-- C2, counterexample. Both providers are refused before the deadline (in
either order). `main` takes no decision then: it stays in the `select`, none
of whose cases is enabled. The decision it takes once the deadline expires is
the `ctx.Done()` case, the timeout, and what `main` prints is the timeout
line, with no failure reason. -/
theorem both_fail_counterexample :
    run (init "01310-100" refused refused okB okV) [.brasil, .via] = some bothFailed
      ∧ run (init "01310-100" refused refused okB okV) [.via, .brasil]
          = some { bothFailed with output := bothFailed.output.reverse }
      ∧ bothFailed.timedOut = false ∧ bothFailed.taken = none
      ∧ step bothFailed .recvBrasil = none ∧ step bothFailed .recvVia = none
      ∧ step bothFailed .ctxDone = none
      ∧ (run bothFailed [.deadline, .ctxDone, .main]).map
          (fun s => (s.taken, linesOf .main s.output))
          = some (some .ctxDone, ["Tempo limite esgotado!\n"]) := by
  refine ⟨rfl, rfl, rfl, rfl, rfl, rfl, rfl, rfl⟩

/-- C2, amended. In every state reached from the start in which both
providers have failed and returned before the deadline, in either order:
each provider has printed its own failure reason, the counter still is 2,
`main` is still blocked in the `select` with no case enabled, the expiry of
the deadline enables the `ctx.Done()` case, which prints the timeout line,
and whatever the schedule, the only decision `main` ever takes is that
one. -/
theorem both_fail_is_timeout (cep : String) (xB xV : HttpExchange)
    (uB : String → Except String BrasilAPIResponse)
    (uV : String → Except String ViaCEPResponse) (evs : List Event) (s : State)
    (mB mV : String)
    (h : run (init cep xB xV uB uV) evs = some s)
    (hB : getBrasilAPI cep xB uB = [.print mB]) (hV : getViaCEP cep xV uV = [.print mV])
    (hb : s.brasil = []) (hv : s.via = []) (hto : s.timedOut = false) :
    linesOf .brasilAPI s.output = [mB] ∧ linesOf .viaCEP s.output = [mV]
      ∧ s.wg = 2 ∧ s.taken = none ∧ s.status = .running
      ∧ step s .recvBrasil = none ∧ step s .recvVia = none ∧ step s .ctxDone = none
      ∧ (∃ s1 s2 s3, step s .deadline = some s1 ∧ step s1 .ctxDone = some s2
          ∧ step s2 .main = some s3 ∧ s3.taken = some .ctxDone
          ∧ s3.output = s.output ++ [(.main, "Tempo limite esgotado!\n")]
          ∧ linesOf .main s3.output = ["Tempo limite esgotado!\n"])
      ∧ ∀ evs' s', run s evs' = some s' → s'.taken = none ∨ s'.taken = some .ctxDone := by
  obtain ⟨pB, pV, pM, inv⟩ := reach_inv h
  have hB' := inv.hB
  have hV' := inv.hV
  rw [hB, hb] at hB'
  rw [hV, hv] at hV'
  have only : ∀ evs' s', run s evs' = some s' → s'.taken = none ∨ s'.taken = some .ctxDone := by
    intro evs' s' h'
    have hr' : run (init cep xB xV uB uV) (evs ++ evs') = some s' := by
      rw [run_append, h]; simpa using h'
    cases ht : s'.taken with
    | none => exact Or.inl rfl
    | some c =>
      cases c with
      | brasilAPI r => have := (taken_brasil hr' ht).1; simp [hB] at this
      | viaCEP r => have := (taken_via hr' ht).1; simp [hV] at this
      | ctxDone => exact Or.inr rfl
  have hne : s.taken = none := by
    rcases only [] s rfl with h0 | h0
    · exact h0
    · have := inv.tmo h0; simp [hto] at this
  have hr := waiting_running h hne
  have hpM := (inv.hM0 hne).1
  have hd : step s .deadline = some { s with timedOut := true } := by
    simp [step, hr, hto]
  obtain ⟨h1, h2⟩ := select_ctxDone (s := { s with timedOut := true }) hr hne rfl
  refine ⟨?_, ?_, ?_, hne, hr, recvBrasil_blocked (by simp [hb]),
    recvVia_blocked (by simp [hv]), ctxDone_blocked hto, ⟨_, _, _, hd, h1, h2, rfl, rfl, ?_⟩, only⟩
  · rw [inv.outB]; exact (failed_lines hB').1 rfl
  · rw [inv.outV]; exact (failed_lines hV').1 rfl
  · have := inv.wg
    rw [(failed_lines hB').2.2.1, (failed_lines hV').2.2.1, hpM] at this
    simpa [mainDones] using this
  · simp [linesOf_append, waiting_silent h hne]

/-- Witness of the amended C2: both providers are refused. -/
theorem both_fail_is_timeout_witness :
    run (init "01310-100" refused refused okB okV) [.brasil, .via] = some bothFailed
      ∧ getBrasilAPI "01310-100" refused okB
          = [.print "Erro ao obter resposta BrasilAPI para CEP 01310-100: connection refused\n"]
      ∧ getViaCEP "01310-100" refused okV
          = [.print "Erro ao obter resposta ViaCEP para CEP 01310-100: connection refused\n"]
      ∧ bothFailed.brasil = [] ∧ bothFailed.via = [] ∧ bothFailed.timedOut = false
      ∧ bothFailed.wg = 2 ∧ bothFailed.taken = none :=
  have hT := both_fail_is_timeout "01310-100" refused refused okB okV [.brasil, .via]
    bothFailed _ _ rfl rfl rfl rfl rfl rfl
  ⟨rfl, rfl, rfl, rfl, rfl, rfl, hT.2.2.1, hT.2.2.2.1⟩

/-- C7, counterexample. ViaCEP is refused, BrasilAPI answers 200 and wins,
and the process exits with code 0: the text on standard output starts with
the diagnostic of the failing provider. -/
theorem beaten_failure_counterexample :
    (run (init "01310-100" ok200 refused okB okV)
        ([.via, .brasil, .recvBrasil] ++ List.replicate 9 .main ++ [.main])).map
        (fun s => (s.status, s.taken, stdout s.output))
      = some (.exited 0, some (.brasilAPI paulistaB),
          "Erro ao obter resposta ViaCEP para CEP 01310-100: connection refused\n"
            ++ "\nResultado da BrasilAPI:\nCEP: 01310-100\nLogradouro: Av. Paulista\n"
            ++ "Bairro: Bela Vista\nLocalidade: São Paulo\nUF: SP\nComplemento: \n"
            ++ "Fonte: BrasilAPI\n") := by
  rfl

/-- C7, amended. In every state reached from the start in which one provider
fails and the `select` took the other provider's case: every line of the
output is either a line of the winner's block, written by `main`, or the one
diagnostic of the failing provider; that diagnostic is written at most once,
and it is in the output as soon as the failing provider has returned; the
lines of `main` are a beginning of the winner's block. -/
theorem beaten_failure_output (cep : String) (xB xV : HttpExchange)
    (uB : String → Except String BrasilAPIResponse)
    (uV : String → Except String ViaCEPResponse) (evs : List Event) (s : State)
    (h : run (init cep xB xV uB uV) evs = some s) :
    (∀ msg r, getViaCEP cep xV uV = [.print msg] → s.taken = some (.brasilAPI r) →
      (∀ p ∈ s.output, (p.1 = .main ∧ p.2 ∈ brasilAPILines r) ∨ p = (.viaCEP, msg))
        ∧ (linesOf .viaCEP s.output = [] ∨ linesOf .viaCEP s.output = [msg])
        ∧ (s.via = [] → linesOf .viaCEP s.output = [msg])
        ∧ ∃ rest, linesOf .main s.output ++ rest = brasilAPILines r)
    ∧ (∀ msg r, getBrasilAPI cep xB uB = [.print msg] → s.taken = some (.viaCEP r) →
      (∀ p ∈ s.output, (p.1 = .main ∧ p.2 ∈ viaCEPLines r) ∨ p = (.brasilAPI, msg))
        ∧ (linesOf .brasilAPI s.output = [] ∨ linesOf .brasilAPI s.output = [msg])
        ∧ (s.brasil = [] → linesOf .brasilAPI s.output = [msg])
        ∧ ∃ rest, linesOf .main s.output ++ rest = viaCEPLines r) := by
  obtain ⟨pB, pV, pM, inv⟩ := reach_inv h
  constructor
  · intro msg r hfail ht
    obtain ⟨hok, hb⟩ := taken_brasil h ht
    have hB := inv.hB
    have hV := inv.hV
    rw [hok, hb] at hB
    rw [hfail] at hV
    have hpre := main_lines_begin h ht
    rw [mainPrints_branch_brasilAPI] at hpre
    have hlB : linesOf .brasilAPI s.output = [] := by rw [inv.outB]; exact (sent_lines hB).1
    have hlV : linesOf .viaCEP s.output = [] ∨ linesOf .viaCEP s.output = [msg] := by
      rw [inv.outV]; exact (failed_lines hV).2.1
    refine ⟨?_, hlV, ?_, _, hpre⟩
    · rintro ⟨g, l⟩ hp
      have hmem := mem_linesOf hp
      cases g with
      | main =>
        left
        refine ⟨rfl, ?_⟩
        rw [← hpre]
        exact List.mem_append_left _ hmem
      | brasilAPI => rw [hlB] at hmem; simp at hmem
      | viaCEP =>
        right
        rcases hlV with h0 | h0 <;> rw [h0] at hmem <;> simp at hmem
        rw [hmem]
    · intro hv
      rw [hv] at hV
      rw [inv.outV]
      exact (failed_lines hV).1 rfl
  · intro msg r hfail ht
    obtain ⟨hok, hv⟩ := taken_via h ht
    have hB := inv.hB
    have hV := inv.hV
    rw [hok, hv] at hV
    rw [hfail] at hB
    have hpre := main_lines_begin h ht
    rw [mainPrints_branch_viaCEP] at hpre
    have hlV : linesOf .viaCEP s.output = [] := by rw [inv.outV]; exact (sent_lines hV).1
    have hlB : linesOf .brasilAPI s.output = [] ∨ linesOf .brasilAPI s.output = [msg] := by
      rw [inv.outB]; exact (failed_lines hB).2.1
    refine ⟨?_, hlB, ?_, _, hpre⟩
    · rintro ⟨g, l⟩ hp
      have hmem := mem_linesOf hp
      cases g with
      | main =>
        left
        refine ⟨rfl, ?_⟩
        rw [← hpre]
        exact List.mem_append_left _ hmem
      | viaCEP => rw [hlV] at hmem; simp at hmem
      | brasilAPI =>
        right
        rcases hlB with h0 | h0 <;> rw [h0] at hmem <;> simp at hmem
        rw [hmem]
    · intro hb
      rw [hb] at hB
      rw [inv.outB]
      exact (failed_lines hB).1 rfl

/-- Witness of the amended C7: one provider is refused and prints its
diagnostic, the other answers 200 and is received by the `select`. -/
theorem beaten_failure_output_witness :
    (run (init "01310-100" ok200 refused okB okV) [.via, .brasil, .recvBrasil]
        = some brasilWonViaFailed
      ∧ linesOf .viaCEP brasilWonViaFailed.output
          = ["Erro ao obter resposta ViaCEP para CEP 01310-100: connection refused\n"])
    ∧ (run (init "01310-100" refused ok200 okB okV) [.brasil, .via, .recvVia]
        = some viaWonBrasilFailed
      ∧ linesOf .brasilAPI viaWonBrasilFailed.output
          = ["Erro ao obter resposta BrasilAPI para CEP 01310-100: connection refused\n"]) :=
  ⟨⟨rfl, ((beaten_failure_output "01310-100" ok200 refused okB okV
      [.via, .brasil, .recvBrasil] brasilWonViaFailed rfl).1 _ paulistaB rfl rfl).2.2.1 rfl⟩,
   ⟨rfl, ((beaten_failure_output "01310-100" refused ok200 okB okV
      [.brasil, .via, .recvVia] viaWonBrasilFailed rfl).2 _ paulistaV rfl rfl).2.2.1 rfl⟩⟩

/-- C9 (exactly one decision per lookup). For every schedule from the start:
the `select` takes a case at most once; it has taken none exactly when
`main` is still blocked in it, and then `main` has printed nothing, the
process is running and the `select` can still decide; once a case is taken,
no later event changes it or takes another one, the case is one of the two
receives (a success, carrying the record that provider decoded) or
`ctx.Done()` (the timeout), and what `main` has printed is a beginning of the
lines of that one case: at most one address block, from one provider. -/
theorem exactly_one_decision (cep : String) (xB xV : HttpExchange)
    (uB : String → Except String BrasilAPIResponse)
    (uV : String → Except String ViaCEPResponse) (evs : List Event) (s : State)
    (h : run (init cep xB xV uB uV) evs = some s) :
    (evs.filter Event.isSelect).length ≤ 1
      ∧ (s.taken = none ↔ evs.filter Event.isSelect = [])
      ∧ (s.taken = none → linesOf .main s.output = [] ∧ s.status = .running
          ∧ ∃ evs' s', run s evs' = some s' ∧ s'.taken = some .ctxDone)
      ∧ (∀ c, s.taken = some c →
          (∀ evs' s', run s evs' = some s' →
            s'.taken = some c ∧ evs'.filter Event.isSelect = [])
          ∧ match c with
            | .brasilAPI r =>
              getBrasilAPI cep xB uB = [.wgDone, .send r]
                ∧ ∃ rest, linesOf .main s.output ++ rest = brasilAPILines r
            | .viaCEP r =>
              getViaCEP cep xV uV = [.wgDone, .send r]
                ∧ ∃ rest, linesOf .main s.output ++ rest = viaCEPLines r
            | .ctxDone =>
              ∃ rest, linesOf .main s.output ++ rest = ["Tempo limite esgotado!\n"]) := by
  obtain ⟨h1, h2⟩ := waiting_once evs (s := init cep xB xV uB uV) rfl h
  refine ⟨h1, h2, ?_, ?_⟩
  · intro ht
    have hr := waiting_running h ht
    refine ⟨waiting_silent h ht, hr, ?_⟩
    cases hto : s.timedOut with
    | true =>
      exact ⟨[.ctxDone], { s with taken := some .ctxDone, main := branch .ctxDone },
        by simp [run, step, hr, ht, hto], rfl⟩
    | false =>
      exact ⟨[.deadline, .ctxDone],
        { s with timedOut := true, taken := some .ctxDone, main := branch .ctxDone },
        by simp [run, step, hr, ht, hto], rfl⟩
  · intro c ht
    refine ⟨fun evs' s' h' => decided_stable evs' ht h', ?_⟩
    have hpre := main_lines_begin h ht
    cases c with
    | brasilAPI r =>
      rw [mainPrints_branch_brasilAPI] at hpre
      exact ⟨(taken_brasil h ht).1, _, hpre⟩
    | viaCEP r =>
      rw [mainPrints_branch_viaCEP] at hpre
      exact ⟨(taken_via h ht).1, _, hpre⟩
    | ctxDone =>
      rw [mainPrints_branch_ctxDone] at hpre
      exact ⟨_, hpre⟩

/-- Witness of C9: both providers answer 200, BrasilAPI is received, and
ViaCEP reaches its send afterwards. -/
theorem exactly_one_decision_witness :
    run (init "01310-100" ok200 ok200 okB okV) [.brasil, .recvBrasil, .via]
        = some brasilWonViaSends
      ∧ ([Event.brasil, .recvBrasil, .via].filter Event.isSelect).length ≤ 1
      ∧ getBrasilAPI "01310-100" ok200 okB = [.wgDone, .send paulistaB] :=
  have hT := exactly_one_decision "01310-100" ok200 ok200 okB okV
    [.brasil, .recvBrasil, .via] brasilWonViaSends rfl
  ⟨rfl, hT.1, (hT.2.2.2 (.brasilAPI paulistaB) rfl).2.1⟩

/-- C10, counterexample. Both providers answer 200; the `select` receives the
record of BrasilAPI, and ViaCEP then reaches its send. The send cannot
complete: neither the goroutine by itself nor the `select` can move it, and
it is still pending when the rest of `main` has run (which here ends in a
panic of the process). -/
theorem abandoned_send_counterexample :
    run (init "01310-100" ok200 ok200 okB okV) [.brasil, .recvBrasil, .via]
        = some brasilWonViaSends
      ∧ brasilWonViaSends.taken = some (.brasilAPI paulistaB)
      ∧ brasilWonViaSends.via = [.send paulistaV]
      ∧ step brasilWonViaSends .via = none
      ∧ step brasilWonViaSends .recvVia = none
      ∧ (run brasilWonViaSends (List.replicate 9 .main)).map (fun s => (s.status, s.via))
          = some (.panicked .main, [.send paulistaV]) := by
  refine ⟨rfl, rfl, rfl, rfl, rfl, rfl⟩

/-- C10, amended. The channels are unbuffered and the send is blocking: in
every state reached from the start in which the `select` has already decided
and a provider is at its channel send, neither that goroutine nor the
`select` can complete the send, and after every further schedule the provider
is still at that send; it never returns. -/
theorem abandoned_send_blocks (cep : String) (xB xV : HttpExchange)
    (uB : String → Except String BrasilAPIResponse)
    (uV : String → Except String ViaCEPResponse) (evs : List Event) (s : State)
    (c : SelectCase)
    (h : run (init cep xB xV uB uV) evs = some s) (ht : s.taken = some c) :
    (∀ r rest, s.brasil = .send r :: rest →
      getBrasilAPI cep xB uB = [.wgDone, .send r]
        ∧ step s .brasil = none ∧ step s .recvBrasil = none
        ∧ ∀ evs' s', run s evs' = some s' → s'.brasil = .send r :: rest)
    ∧ (∀ r rest, s.via = .send r :: rest →
      getViaCEP cep xV uV = [.wgDone, .send r]
        ∧ step s .via = none ∧ step s .recvVia = none
        ∧ ∀ evs' s', run s evs' = some s' → s'.via = .send r :: rest) := by
  constructor
  · intro r rest hb
    refine ⟨(at_send_brasil h hb).1, ?_, ?_, fun evs' s' h' => blocked_brasil_run evs' ht hb h'⟩
    · cases hs : step s .brasil with
      | none => rfl
      | some s1 =>
        rcases step_brasil hs with ⟨line, rest', hb', _⟩ | ⟨rest', hb', _⟩ <;>
          simp [hb] at hb'
    · cases hs : step s .recvBrasil with
      | none => rfl
      | some s1 => obtain ⟨_, _, ht', _⟩ := step_recvBrasil hs; simp [ht] at ht'
  · intro r rest hv
    refine ⟨(at_send_via h hv).1, ?_, ?_, fun evs' s' h' => blocked_via_run evs' ht hv h'⟩
    · cases hs : step s .via with
      | none => rfl
      | some s1 =>
        rcases step_via hs with ⟨line, rest', hv', _⟩ | ⟨rest', hv', _⟩ <;>
          simp [hv] at hv'
    · cases hs : step s .recvVia with
      | none => rfl
      | some s1 => obtain ⟨_, _, ht', _⟩ := step_recvVia hs; simp [ht] at ht'

/-- Witness of the amended C10: both providers answer 200 and the loser
reaches its send after the `select` has decided. -/
theorem abandoned_send_blocks_witness :
    (run (init "01310-100" ok200 ok200 okB okV) [.brasil, .recvBrasil, .via]
        = some brasilWonViaSends
      ∧ brasilWonViaSends.taken = some (.brasilAPI paulistaB)
      ∧ brasilWonViaSends.via = [.send paulistaV]
      ∧ step brasilWonViaSends .recvVia = none)
    ∧ (run (init "01310-100" ok200 ok200 okB okV) [.via, .recvVia, .brasil]
        = some viaWonBrasilSends
      ∧ viaWonBrasilSends.taken = some (.viaCEP paulistaV)
      ∧ viaWonBrasilSends.brasil = [.send paulistaB]
      ∧ step viaWonBrasilSends .recvBrasil = none) :=
  ⟨⟨rfl, rfl, rfl, ((abandoned_send_blocks "01310-100" ok200 ok200 okB okV
      [.brasil, .recvBrasil, .via] brasilWonViaSends _ rfl rfl).2 paulistaV [] rfl).2.2.1⟩,
   ⟨rfl, rfl, rfl, ((abandoned_send_blocks "01310-100" ok200 ok200 okB okV
      [.via, .recvVia, .brasil] viaWonBrasilSends _ rfl rfl).1 paulistaB [] rfl).2.2.1⟩⟩

/-- C3, the failing run. Both providers answer 200. With both `wg.Done()`
calls of the providers made, the `wg.Done()` of the winning branch of `main`
takes the counter from 0 to -1 and the process panics; if the branch of
`main` is faster, it is the `wg.Done()` of the second provider that takes the
counter to -1. -/
theorem negative_counter_panic :
    (run (init "01310-100" ok200 ok200 okB okV)
        ([.brasil, .via, .recvBrasil] ++ List.replicate 9 .main)).map
        (fun s => (s.status, s.wg, s.taken))
      = some (.panicked .main, -1, some (.brasilAPI paulistaB))
    ∧ (run (init "01310-100" ok200 ok200 okB okV)
        ([.brasil, .recvBrasil] ++ List.replicate 9 .main ++ [.via])).map
        (fun s => (s.status, s.wg, s.taken))
      = some (.panicked .viaCEP, -1, some (.brasilAPI paulistaB)) := by
  refine ⟨rfl, rfl⟩

/-- C4, the failing run. Both providers are refused: neither calls
`wg.Done()`. After the deadline `main` prints the timeout line and reaches
`wg.Wait()` with the counter at 2 and both provider goroutines returned: no
event is enabled, the process has not exited, and `main` is blocked for
ever. -/
theorem wait_blocks_forever :
    (run (init "01310-100" refused refused okB okV)
        [.brasil, .via, .deadline, .ctxDone, .main]).map
        (fun s => (s.status, s.wg, s.taken, s.main, s.brasil, s.via, stuck s))
      = some (.running, 2, some .ctxDone, [], [], [], true) := by
  rfl

/-- C8, counterexample. A response with status 201 (a 2xx status) and a body
the decoder accepts: both providers print the status as an error and send
nothing. -/
theorem created_status_counterexample :
    getBrasilAPI "01310-100" (.response 201 "201 Created" (.ok "body")) okB
        = [.print "Erro na resposta BrasilAPI para CEP 01310-100: 201 Created\n"]
      ∧ getViaCEP "01310-100" (.response 201 "201 Created" (.ok "body")) okV
        = [.print "Erro na resposta ViaCEP para CEP 01310-100: 201 Created\n"]
      ∧ okB "body" = .ok paulistaB ∧ okV "body" = .ok paulistaV := by
  refine ⟨rfl, rfl, rfl, rfl⟩

/-- C8, amended. For every CEP and every decoder, `getBrasilAPI` and
`getViaCEP` only print one line naming the cause (no `wg.Done()`, no send) in
each of the five cases: request construction error, network error, status
code other than 200, body read error, body the decoder rejects; and for a
response with status 200 whose body the decoder accepts they call
`wg.Done()` and send, once, the decoded record. -/
theorem provider_outcome_mapping (cep : String)
    (uB : String → Except String BrasilAPIResponse)
    (uV : String → Except String ViaCEPResponse) :
    (∀ err,
      getBrasilAPI cep (.newRequestErr err) uB
          = [.print ("Erro ao criar requisição BrasilAPI para CEP " ++ cep ++ ": " ++ err
              ++ "\n")]
        ∧ getViaCEP cep (.newRequestErr err) uV
          = [.print ("Erro ao criar requisição ViaCEP para CEP " ++ cep ++ ": " ++ err
              ++ "\n")])
    ∧ (∀ err,
      getBrasilAPI cep (.doErr err) uB
          = [.print ("Erro ao obter resposta BrasilAPI para CEP " ++ cep ++ ": " ++ err
              ++ "\n")]
        ∧ getViaCEP cep (.doErr err) uV
          = [.print ("Erro ao obter resposta ViaCEP para CEP " ++ cep ++ ": " ++ err
              ++ "\n")])
    ∧ (∀ code status body, code ≠ 200 →
      getBrasilAPI cep (.response code status body) uB
          = [.print ("Erro na resposta BrasilAPI para CEP " ++ cep ++ ": " ++ status ++ "\n")]
        ∧ getViaCEP cep (.response code status body) uV
          = [.print ("Erro na resposta ViaCEP para CEP " ++ cep ++ ": " ++ status ++ "\n")])
    ∧ (∀ status err,
      getBrasilAPI cep (.response 200 status (.error err)) uB
          = [.print ("Erro ao ler corpo da resposta BrasilAPI para CEP " ++ cep ++ ": " ++ err
              ++ "\n")]
        ∧ getViaCEP cep (.response 200 status (.error err)) uV
          = [.print ("Erro ao ler corpo da resposta ViaCEP para CEP " ++ cep ++ ": " ++ err
              ++ "\n")])
    ∧ (∀ status b err, uB b = .error err →
      getBrasilAPI cep (.response 200 status (.ok b)) uB
        = [.print ("Erro ao decodificar JSON da resposta BrasilAPI para CEP " ++ cep ++ ": "
            ++ err ++ "\n")])
    ∧ (∀ status b err, uV b = .error err →
      getViaCEP cep (.response 200 status (.ok b)) uV
        = [.print ("Erro ao decodificar JSON da resposta ViaCEP para CEP " ++ cep ++ ": "
            ++ err ++ "\n")])
    ∧ (∀ status b r, uB b = .ok r →
      getBrasilAPI cep (.response 200 status (.ok b)) uB = [.wgDone, .send r])
    ∧ (∀ status b r, uV b = .ok r →
      getViaCEP cep (.response 200 status (.ok b)) uV = [.wgDone, .send r]) := by
  refine ⟨fun _ => ⟨rfl, rfl⟩, fun _ => ⟨rfl, rfl⟩, ?_, fun _ _ => ⟨rfl, rfl⟩, ?_, ?_, ?_, ?_⟩
  · intro code status body hc
    simp [getBrasilAPI, getViaCEP, StatusOK, hc]
  · intro status b err hu
    simp [getBrasilAPI, StatusOK, hu]
  · intro status b err hu
    simp [getViaCEP, StatusOK, hu]
  · intro status b r hu
    simp [getBrasilAPI, StatusOK, hu]
  · intro status b r hu
    simp [getViaCEP, StatusOK, hu]

/-- Witness of the amended C8: a 404 response, and a 200 response whose body
decodes. -/
theorem provider_outcome_mapping_witness :
    (404 ≠ 200
      ∧ getBrasilAPI "01310-100" (.response 404 "404 Not Found" (.ok "body")) okB
          = [.print "Erro na resposta BrasilAPI para CEP 01310-100: 404 Not Found\n"])
    ∧ (okB "body" = .ok paulistaB
      ∧ getBrasilAPI "01310-100" (.response 200 "200 OK" (.ok "body")) okB
          = [.wgDone, .send paulistaB])
    ∧ (okV "body" = .ok paulistaV
      ∧ getViaCEP "01310-100" (.response 200 "200 OK" (.ok "body")) okV
          = [.wgDone, .send paulistaV]) :=
  have hT := provider_outcome_mapping "01310-100" okB okV
  ⟨⟨by decide, (hT.2.2.1 404 "404 Not Found" (.ok "body") (by decide)).1⟩,
   ⟨rfl, hT.2.2.2.2.2.2.1 "200 OK" "body" paulistaB rfl⟩,
   ⟨rfl, hT.2.2.2.2.2.2.2 "200 OK" "body" paulistaV rfl⟩⟩

end DesafioCEP
